import Mathlib

/-!
# docker-cleaner: a shallow embedding and its checked properties

The development follows the Go sources

* `cmd/list.go`   : `formatSize`
* `cmd/clean.go`  : `runClean` (flag resolution, confirmation, the four cleaning blocks)
* `pkg/docker/client.go` : `CleanContainers`, `ForceCleanContainers`, `CleanImages`,
  `CleanVolumes`, `CleanNetworks`, `CleanAll`

The container engine is an external collaborator.  It is modelled as a deterministic
machine over an arbitrary state type `σ`: every API call maps the current engine state
to a response and a next state, so a theorem quantified over `Daemon σ` and `σ` covers
every engine behaviour, including behaviour that depends on the calls issued before.
Operations return a `Run`: the Go return value, the engine state afterwards, the
sequence of API calls issued (with their responses) and what was printed.
-/

namespace DockerCleaner

deriving instance DecidableEq for Except

/-! ## `cmd/list.go` : `formatSize` -/

/-- The constant `unit` of `formatSize`. -/
def unit : Int := 1024

/-- Two's complement wrap-around of a mathematical integer into `int64`. -/
def wrapInt64 (x : Int) : Int := (x + 2 ^ 63) % 2 ^ 64 - 2 ^ 63

/-- The `for n := size / unit; n >= unit; n /= unit { div *= unit; exp++ }` loop of
`formatSize`, started at the loop variable `n` with the current `div` and `exp`.
`div *= unit` is an `int64` multiplication, hence wrapped.  Go's `/` truncates, which is
`Int.tdiv`.  The result is `none` when `fuel` iterations were not enough to leave the
loop. -/
def formatSizeLoop : Nat → Int → Int → Nat → Option (Int × Nat)
  | 0, _, _, _ => none
  | fuel + 1, n, div, exp =>
    if n ≥ unit then formatSizeLoop fuel (n.tdiv unit) (wrapInt64 (div * unit)) (exp + 1)
    else some (div, exp)

/-- The number of significant bits of `n` beyond 53: `0` when `n < 2 ^ 53`, and one more
for every halving needed to get below `2 ^ 53`. -/
def excessBits : Nat → Nat → Nat
  | 0, _ => 0
  | fuel + 1, n => if n < 2 ^ 53 then 0 else excessBits fuel (n / 2) + 1

/-- The conversion `float64(n)` for a natural number `n`: the nearest number with at most
53 significant bits, ties to the even significand.  The result is an integer again, so it
is returned as one. -/
def toFloat64 (n : Nat) : Nat :=
  let sh := excessBits n n
  if sh = 0 then n
  else
    let q := n / 2 ^ sh
    let r := n % 2 ^ sh
    let half := 2 ^ (sh - 1)
    let q1 := if r > half ∨ (r = half ∧ q % 2 = 1) then q + 1 else q
    q1 * 2 ^ sh

/-- The verb `%.1f` applied to the exact value `m / 2 ^ s`: the decimal expansion rounded
to one digit after the point, a tie going to the even digit. -/
def sprintfF1 (m s : Nat) : String :=
  let t := 10 * m
  let q := t / 2 ^ s
  let r := t % 2 ^ s
  let tenths := if 2 * r > 2 ^ s ∨ (2 * r = 2 ^ s ∧ q % 2 = 1) then q + 1 else q
  toString (tenths / 10) ++ "." ++ toString (tenths % 10)

/-- The expression `fmt.Sprintf("%.1f", float64(size)/float64(div))` for a positive `size`
and a `div` that is a power of two `2 ^ s` with `s ≤ 62`.  Such a `div` converts exactly
and dividing a float by it only changes the exponent, so the quotient is exactly
`toFloat64 size / 2 ^ s`.  Other arguments are outside this model of the float
arithmetic and yield `none`. -/
def sprintfQuotient (size div : Int) : Option String :=
  if 0 < size then
    match (List.range 63).find? (fun s => div = 2 ^ s) with
    | some s => some (sprintfF1 (toFloat64 size.toNat) s)
    | none => none
  else none

/-- The function `formatSize` of `cmd/list.go`.  An `error` result stands for a run that
does not produce a string: an index outside `"KMGTPE"` (a Go panic), a loop that did not
end within `fuel` iterations, or a float division outside `sprintfQuotient`. -/
def formatSizeFuel (fuel : Nat) (size : Int) : Except String String :=
  if size < unit then .ok (toString size ++ " B")
  else
    match formatSizeLoop fuel (size.tdiv unit) unit 0 with
    | none => .error "loop did not terminate within the fuel"
    | some (div, exp) =>
      match "KMGTPE".toList.get? exp with
      | none => .error "panic: index out of range"
      | some c =>
        match sprintfQuotient size div with
        | none => .error "float division outside the model"
        | some q => .ok (q ++ " " ++ String.singleton c ++ "B")

/-- The function `formatSize` with one loop iteration available per bit of an `int64`. -/
def formatSize (size : Int) : Except String String := formatSizeFuel 64 size

/-! ## `pkg/docker/client.go` : the engine API as seen by `Client` -/

/-- The fields of `types.Container` that the program reads.  The engine names a container
by the 64 hexadecimal digits of a SHA-256 digest; `idLen` records the part of this that
the program depends on, namely that the slice `cont.ID[:12]` is within bounds. -/
structure Container where
  ID : String
  State : String
  idLen : 12 ≤ ID.utf8ByteSize
deriving DecidableEq

/-- The type `filters.Args`, as its list of key/value pairs. -/
abbrev Filters := List (String × String)

/-- The type `container.PruneReport`; `SpaceReclaimed` is a `uint64`. -/
structure ContainersPruneReport where
  ContainersDeleted : List String
  SpaceReclaimed : Nat
deriving DecidableEq

/-- The type `image.DeleteResponse`. -/
structure DeleteResponse where
  Deleted : String
  Untagged : String
deriving DecidableEq

/-- The type `image.PruneReport`; `SpaceReclaimed` is a `uint64`. -/
structure ImagesPruneReport where
  ImagesDeleted : List DeleteResponse
  SpaceReclaimed : Nat
deriving DecidableEq

/-- The type `volume.PruneReport`; `SpaceReclaimed` is a `uint64`. -/
structure VolumesPruneReport where
  VolumesDeleted : List String
  SpaceReclaimed : Nat
deriving DecidableEq

/-- The type `network.PruneReport`. -/
structure NetworksPruneReport where
  NetworksDeleted : List String
deriving DecidableEq

/-- The container engine behind `c.cli`: each API method the program calls, as a
transition of the engine state `σ` that also yields the response.  `ContainerList` takes
the `All` field of `container.ListOptions`, `ContainerStop` the container ID and the
timeout in seconds, `ContainerKill` the container ID and the signal.  A Go `error` is its
message; `none` is `nil`. -/
structure Daemon (σ : Type) where
  ContainerList : Bool → σ → Except String (List Container) × σ
  ContainerStop : String → Nat → σ → Option String × σ
  ContainerKill : String → String → σ → Option String × σ
  ContainersPrune : Filters → σ → Except String ContainersPruneReport × σ
  ImagesPrune : Filters → σ → Except String ImagesPruneReport × σ
  VolumesPrune : Filters → σ → Except String VolumesPruneReport × σ
  NetworksPrune : Filters → σ → Except String NetworksPruneReport × σ

/-- One API call as issued to the engine, together with the response it got. -/
inductive Event where
  | containerList (all : Bool) (res : Except String (List Container))
  | containerStop (id : String) (timeout : Nat) (err : Option String)
  | containerKill (id : String) (signal : String) (err : Option String)
  | containersPrune (args : Filters) (res : Except String ContainersPruneReport)
  | imagesPrune (args : Filters) (res : Except String ImagesPruneReport)
  | volumesPrune (args : Filters) (res : Except String VolumesPruneReport)
  | networksPrune (args : Filters) (res : Except String NetworksPruneReport)
deriving DecidableEq

/-- The four resource kinds. -/
inductive Kind where
  | containers
  | images
  | volumes
  | networks
deriving DecidableEq, Repr

/-- The struct `CleanupStats`: four `int64` counts and a `uint64` number of bytes. -/
structure CleanupStats where
  ContainersRemoved : Int := 0
  ImagesRemoved : Int := 0
  VolumesRemoved : Int := 0
  NetworksRemoved : Int := 0
  SpaceReclaimed : Nat := 0
deriving DecidableEq, Repr

/-- What the program prints, one constructor per `fmt.Print*` call site.
`warnStop id err` is `"Warning: failed to stop container %s: %v"` with the first 12 bytes
of `id`; `warnCleanup k err` is the warning of `CleanAll` for kind `k`; `summary t` is the
block of five lines under "Cleanup Summary", rendering the fields of `t`. -/
inductive Output where
  | confirmQuestion
  | cancelled
  | cleaning (k : Kind)
  | removed (k : Kind) (n : Int)
  | warnStop (id : String) (err : String)
  | warnCleanup (k : Kind) (err : String)
  | summary (t : CleanupStats)
deriving DecidableEq

/-- The outcome of running an operation from an engine state: the Go return value, the
engine state afterwards, the API calls issued in order, and the output in order. -/
structure Run (σ : Type) (α : Type) where
  res : α
  state : σ
  log : List Event
  out : List Output

variable {σ : Type}

/-- Addition of two `uint64`. -/
def addUint64 (a b : Nat) : Nat := (a + b) % 2 ^ 64

/-- The conversion `int64(len(xs))`.  A Go slice has fewer than `2 ^ 63` elements and
`int` is `int64` on the 64-bit targets, so the conversion keeps the length. -/
def lenInt64 {α : Type} (xs : List α) : Int := (xs.length : Int)

/-- The loop `for _, cont := range containers` of `CleanContainers`: each container is
sent `ContainerStop` with a timeout of 10 seconds; a failure only prints a warning. -/
def stopListed (d : Daemon σ) : List Container → σ → Run σ Unit
  | [], s => ⟨(), s, [], []⟩
  | cont :: rest, s =>
    let timeout := 10
    let r := d.ContainerStop cont.ID timeout s
    let k := stopListed d rest r.2
    ⟨(), k.state, Event.containerStop cont.ID timeout r.1 :: k.log,
      (match r.1 with
        | some e => [Output.warnStop cont.ID e]
        | none => []) ++ k.out⟩

/-- The part of `CleanContainers` from `pruneFilters := filters.NewArgs()` on. -/
def pruneContainers (d : Daemon σ) (s : σ) : Run σ (Except String CleanupStats) :=
  let r := d.ContainersPrune [] s
  match r.1 with
  | .error e => ⟨.error ("failed to prune containers: " ++ e), r.2, [Event.containersPrune [] r.1], []⟩
  | .ok report =>
    ⟨.ok { ContainersRemoved := lenInt64 report.ContainersDeleted,
           SpaceReclaimed := report.SpaceReclaimed },
      r.2, [Event.containersPrune [] r.1], []⟩

/-- The method `Client.CleanContainers`. -/
def CleanContainers (d : Daemon σ) (all : Bool) (s : σ) : Run σ (Except String CleanupStats) :=
  if all then
    let r := d.ContainerList false s
    match r.1 with
    | .error e =>
      ⟨.error ("failed to list containers: " ++ e), r.2, [Event.containerList false r.1], []⟩
    | .ok containers =>
      let l := stopListed d containers r.2
      let p := pruneContainers d l.state
      ⟨p.res, p.state, Event.containerList false r.1 :: (l.log ++ p.log), l.out ++ p.out⟩
  else pruneContainers d s

/-- The first loop of `ForceCleanContainers`: a container whose state is `"running"` is
sent `ContainerStop` with a timeout of 5 seconds; a failure only prints a warning. -/
def stopRunning (d : Daemon σ) : List Container → σ → Run σ Unit
  | [], s => ⟨(), s, [], []⟩
  | cont :: rest, s =>
    if cont.State = "running" then
      let timeout := 5
      let r := d.ContainerStop cont.ID timeout s
      let k := stopRunning d rest r.2
      ⟨(), k.state, Event.containerStop cont.ID timeout r.1 :: k.log,
        (match r.1 with
          | some e => [Output.warnStop cont.ID e]
          | none => []) ++ k.out⟩
    else stopRunning d rest s

/-- The second loop of `ForceCleanContainers`: every container is sent `SIGKILL`; the
error is ignored. -/
def killListed (d : Daemon σ) : List Container → σ → Run σ Unit
  | [], s => ⟨(), s, [], []⟩
  | cont :: rest, s =>
    let r := d.ContainerKill cont.ID "SIGKILL" s
    let k := killListed d rest r.2
    ⟨(), k.state, Event.containerKill cont.ID "SIGKILL" r.1 :: k.log, k.out⟩

/-- The method `Client.ForceCleanContainers`. -/
def ForceCleanContainers (d : Daemon σ) (s : σ) : Run σ (Except String CleanupStats) :=
  let r := d.ContainerList true s
  match r.1 with
  | .error e =>
    ⟨.error ("failed to list containers: " ++ e), r.2, [Event.containerList true r.1], []⟩
  | .ok containers =>
    let l := stopRunning d containers r.2
    let k := killListed d containers l.state
    let p := pruneContainers d k.state
    ⟨p.res, p.state, Event.containerList true r.1 :: (l.log ++ (k.log ++ p.log)),
      l.out ++ (k.out ++ p.out)⟩

/-- The method `Client.CleanImages`. -/
def CleanImages (d : Daemon σ) (dangling : Bool) (s : σ) : Run σ (Except String CleanupStats) :=
  let pruneFilters : Filters := if dangling then [("dangling", "true")] else []
  let r := d.ImagesPrune pruneFilters s
  match r.1 with
  | .error e =>
    ⟨.error ("failed to prune images: " ++ e), r.2, [Event.imagesPrune pruneFilters r.1], []⟩
  | .ok report =>
    ⟨.ok { ImagesRemoved := lenInt64 report.ImagesDeleted,
           SpaceReclaimed := addUint64 0 report.SpaceReclaimed },
      r.2, [Event.imagesPrune pruneFilters r.1], []⟩

/-- The method `Client.CleanVolumes`. -/
def CleanVolumes (d : Daemon σ) (s : σ) : Run σ (Except String CleanupStats) :=
  let r := d.VolumesPrune [] s
  match r.1 with
  | .error e => ⟨.error ("failed to prune volumes: " ++ e), r.2, [Event.volumesPrune [] r.1], []⟩
  | .ok report =>
    ⟨.ok { VolumesRemoved := lenInt64 report.VolumesDeleted,
           SpaceReclaimed := addUint64 0 report.SpaceReclaimed },
      r.2, [Event.volumesPrune [] r.1], []⟩

/-- The method `Client.CleanNetworks`. -/
def CleanNetworks (d : Daemon σ) (s : σ) : Run σ (Except String CleanupStats) :=
  let r := d.NetworksPrune [] s
  match r.1 with
  | .error e =>
    ⟨.error ("failed to prune networks: " ++ e), r.2, [Event.networksPrune [] r.1], []⟩
  | .ok report =>
    ⟨.ok { NetworksRemoved := lenInt64 report.NetworksDeleted },
      r.2, [Event.networksPrune [] r.1], []⟩

/-- The method `Client.CleanAll`: the four steps in order, each either warned about or
folded into `totalStats`; the return value is always `totalStats, nil`. -/
def CleanAll (d : Daemon σ) (s : σ) : Run σ (Except String CleanupStats) :=
  let total : CleanupStats := {}
  let c := ForceCleanContainers d s
  let t1 : CleanupStats × List Output :=
    match c.res with
    | .error e => (total, [Output.warnCleanup Kind.containers e])
    | .ok st => ({ total with ContainersRemoved := st.ContainersRemoved,
                              SpaceReclaimed := addUint64 total.SpaceReclaimed st.SpaceReclaimed }, [])
  let i := CleanImages d false c.state
  let t2 : CleanupStats × List Output :=
    match i.res with
    | .error e => (t1.1, [Output.warnCleanup Kind.images e])
    | .ok st => ({ t1.1 with ImagesRemoved := st.ImagesRemoved,
                             SpaceReclaimed := addUint64 t1.1.SpaceReclaimed st.SpaceReclaimed }, [])
  let v := CleanVolumes d i.state
  let t3 : CleanupStats × List Output :=
    match v.res with
    | .error e => (t2.1, [Output.warnCleanup Kind.volumes e])
    | .ok st => ({ t2.1 with VolumesRemoved := st.VolumesRemoved,
                             SpaceReclaimed := addUint64 t2.1.SpaceReclaimed st.SpaceReclaimed }, [])
  let n := CleanNetworks d v.state
  let t4 : CleanupStats × List Output :=
    match n.res with
    | .error e => (t3.1, [Output.warnCleanup Kind.networks e])
    | .ok st => ({ t3.1 with NetworksRemoved := st.NetworksRemoved }, [])
  ⟨.ok t4.1, n.state, c.log ++ (i.log ++ (v.log ++ n.log)),
    c.out ++ (t1.2 ++ (i.out ++ (t2.2 ++ (v.out ++ (t3.2 ++ (n.out ++ t4.2))))))⟩

/-- The function `NewClient`: the result of `client.NewClientWithOpts`, its error
wrapped. -/
def NewClient (cli : Except String (Daemon σ)) : Except String (Daemon σ) :=
  match cli with
  | .error e => .error ("failed to create Docker client: " ++ e)
  | .ok d => .ok d

/-! ## `cmd/clean.go` : `runClean` -/

/-- The flag variables of the `clean` command, with the defaults of `init`. -/
structure Flags where
  cleanAll : Bool := false
  cleanContainers : Bool := false
  cleanImages : Bool := false
  cleanVolumes : Bool := false
  cleanNetworks : Bool := false
  force : Bool := false
  dangling : Bool := true
deriving DecidableEq, Repr

/-- The two `if` statements of `runClean` that rewrite the kind flags: no flag at all
selects containers and images, and `--all` selects the four kinds. -/
def resolveFlags (f : Flags) : Flags :=
  let f1 : Flags :=
    if !f.cleanAll && !f.cleanContainers && !f.cleanImages && !f.cleanVolumes
        && !f.cleanNetworks then
      { f with cleanContainers := true, cleanImages := true }
    else f
  if f1.cleanAll then
    { f1 with cleanContainers := true, cleanImages := true, cleanVolumes := true,
              cleanNetworks := true }
  else f1

/-- Sequencing of the blocks of `runClean`: a block that ran `return fmt.Errorf(...)` ends
the function with that error; otherwise the next block runs from the engine state and
the `totalStats` left by this one. -/
def Run.andThen {α β : Type} (r : Run σ (Except String α))
    (next : α → σ → Run σ (Except String β)) : Run σ (Except String β) :=
  match r.res with
  | .error e => ⟨.error e, r.state, r.log, r.out⟩
  | .ok a =>
    let n := next a r.state
    ⟨n.res, n.state, r.log ++ n.log, r.out ++ n.out⟩

/-- The block `if cleanContainers { ... }` of `runClean`. -/
def containersBlock (d : Daemon σ) (f : Flags) (total : CleanupStats) (s : σ) :
    Run σ (Except String CleanupStats) :=
  if f.cleanContainers then
    let r := CleanContainers d f.cleanAll s
    match r.res with
    | .error e =>
      ⟨.error ("failed to clean containers: " ++ e), r.state, r.log,
        Output.cleaning Kind.containers :: r.out⟩
    | .ok stats =>
      ⟨.ok { total with
              ContainersRemoved := wrapInt64 (total.ContainersRemoved + stats.ContainersRemoved) },
        r.state, r.log,
        Output.cleaning Kind.containers
          :: (r.out ++ [Output.removed Kind.containers stats.ContainersRemoved])⟩
  else ⟨.ok total, s, [], []⟩

/-- The block `if cleanImages { ... }` of `runClean`. -/
def imagesBlock (d : Daemon σ) (f : Flags) (total : CleanupStats) (s : σ) :
    Run σ (Except String CleanupStats) :=
  if f.cleanImages then
    let r := CleanImages d f.dangling s
    match r.res with
    | .error e =>
      ⟨.error ("failed to clean images: " ++ e), r.state, r.log,
        Output.cleaning Kind.images :: r.out⟩
    | .ok stats =>
      ⟨.ok { total with
              ImagesRemoved := wrapInt64 (total.ImagesRemoved + stats.ImagesRemoved),
              SpaceReclaimed := addUint64 total.SpaceReclaimed stats.SpaceReclaimed },
        r.state, r.log,
        Output.cleaning Kind.images :: (r.out ++ [Output.removed Kind.images stats.ImagesRemoved])⟩
  else ⟨.ok total, s, [], []⟩

/-- The block `if cleanVolumes { ... }` of `runClean`. -/
def volumesBlock (d : Daemon σ) (f : Flags) (total : CleanupStats) (s : σ) :
    Run σ (Except String CleanupStats) :=
  if f.cleanVolumes then
    let r := CleanVolumes d s
    match r.res with
    | .error e =>
      ⟨.error ("failed to clean volumes: " ++ e), r.state, r.log,
        Output.cleaning Kind.volumes :: r.out⟩
    | .ok stats =>
      ⟨.ok { total with
              VolumesRemoved := wrapInt64 (total.VolumesRemoved + stats.VolumesRemoved),
              SpaceReclaimed := addUint64 total.SpaceReclaimed stats.SpaceReclaimed },
        r.state, r.log,
        Output.cleaning Kind.volumes
          :: (r.out ++ [Output.removed Kind.volumes stats.VolumesRemoved])⟩
  else ⟨.ok total, s, [], []⟩

/-- The block `if cleanNetworks { ... }` of `runClean`. -/
def networksBlock (d : Daemon σ) (f : Flags) (total : CleanupStats) (s : σ) :
    Run σ (Except String CleanupStats) :=
  if f.cleanNetworks then
    let r := CleanNetworks d s
    match r.res with
    | .error e =>
      ⟨.error ("failed to clean networks: " ++ e), r.state, r.log,
        Output.cleaning Kind.networks :: r.out⟩
    | .ok stats =>
      ⟨.ok { total with
              NetworksRemoved := wrapInt64 (total.NetworksRemoved + stats.NetworksRemoved) },
        r.state, r.log,
        Output.cleaning Kind.networks
          :: (r.out ++ [Output.removed Kind.networks stats.NetworksRemoved])⟩
  else ⟨.ok total, s, [], []⟩

/-- The part of `runClean` from the block `if cleanImages { ... }` to the end, entered
with the `totalStats` and the engine state left by the block for containers: the three
remaining blocks in order and then the summary. -/
def afterContainers (d : Daemon σ) (f : Flags) (t1 : CleanupStats) (s1 : σ) :
    Run σ (Except String Unit) :=
  (imagesBlock d f t1 s1).andThen fun t2 s2 =>
    (volumesBlock d f t2 s2).andThen fun t3 s3 =>
      (networksBlock d f t3 s3).andThen fun t4 s4 =>
        ⟨.ok (), s4, [], [Output.summary t4]⟩

/-- The part of `runClean` from `totalStats := &docker.CleanupStats{}` to the end, for
the resolved flags `f`: the four blocks in order and then the summary. -/
def cleanSelected (d : Daemon σ) (f : Flags) (s : σ) : Run σ (Except String Unit) :=
  (containersBlock d f {} s).andThen (afterContainers d f)

/-- The function `runClean`.  `cli` is the result of `client.NewClientWithOpts`,
`response` the token that `fmt.Scanln` stores, which is read only without `--force`, and
`s` the state of the engine.  The result `.ok ()` is the return value `nil`.  The deferred
`cancel` and `client.Close` calls issue no API call. -/
def runClean (flags : Flags) (response : String) (cli : Except String (Daemon σ)) (s : σ) :
    Run σ (Except String Unit) :=
  match NewClient cli with
  | .error e => ⟨.error ("failed to create Docker client: " ++ e), s, [], []⟩
  | .ok d =>
    let f := resolveFlags flags
    if f.force then cleanSelected d f s
    else if response != "y" && response != "Y" then
      ⟨.ok (), s, [], [Output.confirmQuestion, Output.cancelled]⟩
    else
      let r := cleanSelected d f s
      ⟨r.res, r.state, r.log, Output.confirmQuestion :: r.out⟩

/-! ## Observations on runs -/

/-- The kind that a prune call acts on; `none` for list, stop and kill calls. -/
def Event.prunedKind : Event → Option Kind
  | .containersPrune _ _ => some Kind.containers
  | .imagesPrune _ _ => some Kind.images
  | .volumesPrune _ _ => some Kind.volumes
  | .networksPrune _ _ => some Kind.networks
  | _ => none

/-- The kinds pruned by a sequence of API calls, in order. -/
def prunedKinds (log : List Event) : List Kind := log.filterMap Event.prunedKind

/-- Whether an API call changes the engine: a stop, a kill or a prune. -/
def Event.isMutation : Event → Bool
  | .containerList _ _ => false
  | _ => true

/-- Whether an API call is a kill. -/
def Event.isKill : Event → Bool
  | .containerKill _ _ _ => true
  | _ => false

/-- Whether a list or prune call was answered with an error. -/
def Event.isFailedStep : Event → Bool
  | .containerList _ (.error _) => true
  | .containersPrune _ (.error _) => true
  | .imagesPrune _ (.error _) => true
  | .volumesPrune _ (.error _) => true
  | .networksPrune _ (.error _) => true
  | _ => false

/-- The API call of an event without its response. -/
inductive Call where
  | containerList (all : Bool)
  | containerStop (id : String) (timeout : Nat)
  | containerKill (id : String) (signal : String)
  | containersPrune (args : Filters)
  | imagesPrune (args : Filters)
  | volumesPrune (args : Filters)
  | networksPrune (args : Filters)
deriving DecidableEq

/-- The call of an event. -/
def Event.call : Event → Call
  | .containerList a _ => Call.containerList a
  | .containerStop i t _ => Call.containerStop i t
  | .containerKill i g _ => Call.containerKill i g
  | .containersPrune a _ => Call.containersPrune a
  | .imagesPrune a _ => Call.imagesPrune a
  | .volumesPrune a _ => Call.volumesPrune a
  | .networksPrune a _ => Call.networksPrune a

/-- The statistics rendered by an output item, for the summary block. -/
def Output.stats? : Output → Option CleanupStats
  | .summary t => some t
  | _ => none

/-- The statistics of the first summary block printed, when there is one. -/
def summaryOf (out : List Output) : Option CleanupStats := (out.filterMap Output.stats?).head?

/-- The count that a `CleanupStats` holds for a kind. -/
def CleanupStats.count (t : CleanupStats) : Kind → Int
  | .containers => t.ContainersRemoved
  | .images => t.ImagesRemoved
  | .volumes => t.VolumesRemoved
  | .networks => t.NetworksRemoved

/-- The count that a step reported for a kind: that of its statistics when it returned
some, `0` when it returned an error. -/
def reportedCount (r : Except String CleanupStats) (k : Kind) : Int :=
  match r with
  | .ok st => st.count k
  | .error _ => 0

/-- Whether a step returned an error. -/
def failed {α : Type} (r : Except String α) : Bool :=
  match r with
  | .ok _ => false
  | .error _ => true

/-- Whether a run of `runClean` gets past the confirmation: it is forced, or the answer
read is `y` or `Y`. -/
def confirmed (f : Flags) (response : String) : Bool :=
  f.force || !(response != "y" && response != "Y")

/-- The kinds selected by resolved flags, in the order of the blocks of `runClean`. -/
def selectedKinds (f : Flags) : List Kind :=
  (if f.cleanContainers then [Kind.containers] else [])
    ++ (if f.cleanImages then [Kind.images] else [])
    ++ (if f.cleanVolumes then [Kind.volumes] else [])
    ++ (if f.cleanNetworks then [Kind.networks] else [])

/-- A run either returns a value, and then no list or prune call of it failed and the
kinds it pruned are `kinds`, or it returns an error, and then its last API call is a list
or prune call that failed and no earlier one failed. -/
def Run.StopsAtFailure {α : Type} (r : Run σ (Except String α)) (kinds : List Kind) : Prop :=
  (∃ a, r.res = .ok a ∧ (∀ ev ∈ r.log, ev.isFailedStep = false) ∧ prunedKinds r.log = kinds) ∨
  (∃ e before ev, r.res = .error e ∧ r.log = before ++ [ev] ∧ ev.isFailedStep = true ∧
    ∀ x ∈ before, x.isFailedStep = false)

/-- The kind that an API call belongs to: list, stop and kill calls belong to the
cleaning of containers. -/
def Event.kind : Event → Kind
  | .containerList _ _ => Kind.containers
  | .containerStop _ _ _ => Kind.containers
  | .containerKill _ _ _ => Kind.containers
  | .containersPrune _ _ => Kind.containers
  | .imagesPrune _ _ => Kind.images
  | .volumesPrune _ _ => Kind.volumes
  | .networksPrune _ _ => Kind.networks

/-- The error with which `runClean` ends after a list or prune call that failed: the
error of the engine, wrapped by the `fmt.Errorf` of the `Client` method that issued the
call and then by the `fmt.Errorf` of the block of `runClean` for that kind. -/
def abortMessage : Event → Option String
  | .containerList _ (.error e) =>
    some ("failed to clean containers: " ++ ("failed to list containers: " ++ e))
  | .containersPrune _ (.error e) =>
    some ("failed to clean containers: " ++ ("failed to prune containers: " ++ e))
  | .imagesPrune _ (.error e) =>
    some ("failed to clean images: " ++ ("failed to prune images: " ++ e))
  | .volumesPrune _ (.error e) =>
    some ("failed to clean volumes: " ++ ("failed to prune volumes: " ++ e))
  | .networksPrune _ (.error e) =>
    some ("failed to clean networks: " ++ ("failed to prune networks: " ++ e))
  | _ => none

/-- A run that returns an error returns the one that `abortMessage` gives for its last
API call, and of `kinds` it has pruned, before that call, exactly those that come before
the kind of that call. -/
def Run.ReportsAbort {α : Type} (r : Run σ (Except String α)) (kinds : List Kind) : Prop :=
  ∀ e, r.res = .error e →
    ∃ before ev later, r.log = before ++ [ev] ∧ abortMessage ev = some e ∧
      kinds = prunedKinds before ++ ev.kind :: later

/-! ## Sample engines -/

/-- An engine without state that answers every call of a method in the same way:
`ContainerList` with `containers`, `ContainerStop` with `stop`, `ContainerKill` with
success, and the four prune methods with `cp`, `ip`, `vp` and `np`. -/
def fixedDaemon (containers : Except String (List Container)) (stop : Option String)
    (cp : Except String ContainersPruneReport) (ip : Except String ImagesPruneReport)
    (vp : Except String VolumesPruneReport) (np : Except String NetworksPruneReport) :
    Daemon Unit where
  ContainerList := fun _ s => (containers, s)
  ContainerStop := fun _ _ s => (stop, s)
  ContainerKill := fun _ _ s => (none, s)
  ContainersPrune := fun _ s => (cp, s)
  ImagesPrune := fun _ s => (ip, s)
  VolumesPrune := fun _ s => (vp, s)
  NetworksPrune := fun _ s => (np, s)

/-- A running container. -/
def web : Container :=
  ⟨"4f2a9c01d7e3b5a68c904f2a9c01d7e3b5a68c904f2a9c01d7e3b5a68c90aa17", "running", by decide⟩

/-- An engine with one running container that stops on request, where every prune
succeeds: one container (4096 bytes), two image entries (100 bytes), one volume
(20 bytes) and one network are removed. -/
def healthyDaemon : Daemon Unit :=
  fixedDaemon (.ok [web]) none (.ok ⟨[web.ID], 4096⟩)
    (.ok ⟨[⟨"sha256:1f", ""⟩, ⟨"", "app:old"⟩], 100⟩) (.ok ⟨["cache"], 20⟩) (.ok ⟨["backend"]⟩)

/-- The engine `healthyDaemon`, except that the container does not stop in time. -/
def stubbornDaemon : Daemon Unit :=
  fixedDaemon (.ok [web]) (some "context deadline exceeded") (.ok ⟨[], 0⟩)
    (.ok ⟨[⟨"sha256:1f", ""⟩, ⟨"", "app:old"⟩], 100⟩) (.ok ⟨["cache"], 20⟩) (.ok ⟨["backend"]⟩)

/-- The engine `healthyDaemon`, except that the prune of containers is rejected. -/
def rejectingDaemon : Daemon Unit :=
  fixedDaemon (.ok [web]) none (.error "a prune operation is already running")
    (.ok ⟨[⟨"sha256:1f", ""⟩, ⟨"", "app:old"⟩], 100⟩) (.ok ⟨["cache"], 20⟩) (.ok ⟨["backend"]⟩)

/-- The engine `healthyDaemon`, except that the prune of images fails. -/
def imageFailureDaemon : Daemon Unit :=
  fixedDaemon (.ok [web]) none (.ok ⟨[web.ID], 4096⟩) (.error "layer store is locked")
    (.ok ⟨["cache"], 20⟩) (.ok ⟨["backend"]⟩)

/-- An engine on which every list and prune call fails. -/
def brokenDaemon : Daemon Unit :=
  fixedDaemon (.error "connection refused") none (.error "connection refused")
    (.error "connection refused") (.error "connection refused") (.error "connection refused")

/-- An engine with nothing to list and nothing to remove. -/
def emptyDaemon : Daemon Unit :=
  fixedDaemon (.ok []) none (.ok ⟨[], 0⟩) (.ok ⟨[], 0⟩) (.ok ⟨[], 0⟩) (.ok ⟨[]⟩)

/-- An engine whose state is the list of running containers: a stop takes the container
off the list, and the prune of containers removes those that are not running among
`known`, each worth 1024 bytes. -/
def trackingDaemon (known : List Container) : Daemon (List String) where
  ContainerList := fun _ running => (.ok (known.filter fun c => running.contains c.ID), running)
  ContainerStop := fun id _ running => (none, running.filter fun r => r != id)
  ContainerKill := fun id _ running => (none, running.filter fun r => r != id)
  ContainersPrune := fun _ running =>
    let gone := (known.filter fun c => !running.contains c.ID).map fun c => c.ID
    (.ok ⟨gone, 1024 * gone.length⟩, running)
  ImagesPrune := fun _ running => (.ok ⟨[], 0⟩, running)
  VolumesPrune := fun _ running => (.ok ⟨[], 0⟩, running)
  NetworksPrune := fun _ running => (.ok ⟨[]⟩, running)

/-! ## Properties of `formatSize` -/

theorem formatSizeLoop_continue (fuel : Nat) (n div : Int) (exp : Nat) (h : 1024 ≤ n) :
    formatSizeLoop (fuel + 1) n div exp
      = formatSizeLoop fuel (n / 1024) (wrapInt64 (div * 1024)) (exp + 1) := by
  have h0 : (0 : Int) ≤ n := by omega
  have ht : n.tdiv 1024 = n / 1024 := Int.tdiv_eq_ediv h0 (by norm_num)
  simp only [formatSizeLoop, unit, ge_iff_le, h, if_true, ht]

theorem formatSizeLoop_exit (fuel : Nat) (n div : Int) (exp : Nat) (h : n < 1024) :
    formatSizeLoop (fuel + 1) n div exp = some (div, exp) := by
  have h1 : ¬ (1024 : Int) ≤ n := by omega
  simp only [formatSizeLoop, unit, ge_iff_le, h1, if_false]

theorem wrapInt64_of_fits (x : Int) (h0 : 0 ≤ x) (h1 : x < 2 ^ 63) : wrapInt64 x = x := by
  unfold wrapInt64
  omega

/-- One iteration of the loop of `formatSize` in which `div *= unit` does not wrap. -/
theorem formatSizeLoop_step (fuel : Nat) (n div : Int) (exp : Nat) (h : 1024 ≤ n)
    (h0 : 0 ≤ div) (h1 : div * 1024 < 2 ^ 63) :
    formatSizeLoop (fuel + 1) n div exp = formatSizeLoop fuel (n / 1024) (div * 1024) (exp + 1) := by
  rw [formatSizeLoop_continue _ _ _ _ h, wrapInt64_of_fits _ (by omega) h1]

/-- The loop of `formatSize` on an `int64` of at least 1024: with six or more iterations
available it ends, at the exponent `k` whose power of 1024 brackets `size`, and `div` is
that power, never wrapped. -/
theorem formatSizeLoop_result (size : Int) (h1 : 1024 ≤ size) (h2 : size < 2 ^ 63) :
    ∃ k : Nat, k ≤ 5 ∧ (1024 : Int) ^ (k + 1) ≤ size ∧ size < 1024 ^ (k + 2) ∧
      ∀ fuel : Nat, 6 ≤ fuel →
        formatSizeLoop fuel (size / 1024) 1024 0 = some (1024 ^ (k + 1), k) := by
  have e6 : ∀ f : Nat, 6 + f = (f + 5) + 1 := fun f => by omega
  have e5 : ∀ f : Nat, f + 5 = (f + 4) + 1 := fun f => by omega
  have e4 : ∀ f : Nat, f + 4 = (f + 3) + 1 := fun f => by omega
  have e3 : ∀ f : Nat, f + 3 = (f + 2) + 1 := fun f => by omega
  have e2 : ∀ f : Nat, f + 2 = (f + 1) + 1 := fun f => by omega
  norm_num at h2
  by_cases c0 : size / 1024 < 1024
  · refine ⟨0, by omega, by norm_num; omega, by norm_num; omega, fun fuel hf => ?_⟩
    obtain ⟨f, rfl⟩ := Nat.exists_eq_add_of_le hf
    rw [e6 f, formatSizeLoop_exit _ _ _ _ (by omega)]; norm_num
  by_cases c1 : size / 1024 / 1024 < 1024
  · refine ⟨1, by omega, by norm_num; omega, by norm_num; omega, fun fuel hf => ?_⟩
    obtain ⟨f, rfl⟩ := Nat.exists_eq_add_of_le hf
    rw [e6 f, formatSizeLoop_step _ _ _ _ (by omega) (by norm_num) (by norm_num)]
    rw [e5 f, formatSizeLoop_exit _ _ _ _ (by omega)]; norm_num
  by_cases c2 : size / 1024 / 1024 / 1024 < 1024
  · refine ⟨2, by omega, by norm_num; omega, by norm_num; omega, fun fuel hf => ?_⟩
    obtain ⟨f, rfl⟩ := Nat.exists_eq_add_of_le hf
    rw [e6 f, formatSizeLoop_step _ _ _ _ (by omega) (by norm_num) (by norm_num)]
    rw [e5 f, formatSizeLoop_step _ _ _ _ (by omega) (by norm_num) (by norm_num)]
    rw [e4 f, formatSizeLoop_exit _ _ _ _ (by omega)]; norm_num
  by_cases c3 : size / 1024 / 1024 / 1024 / 1024 < 1024
  · refine ⟨3, by omega, by norm_num; omega, by norm_num; omega, fun fuel hf => ?_⟩
    obtain ⟨f, rfl⟩ := Nat.exists_eq_add_of_le hf
    rw [e6 f, formatSizeLoop_step _ _ _ _ (by omega) (by norm_num) (by norm_num)]
    rw [e5 f, formatSizeLoop_step _ _ _ _ (by omega) (by norm_num) (by norm_num)]
    rw [e4 f, formatSizeLoop_step _ _ _ _ (by omega) (by norm_num) (by norm_num)]
    rw [e3 f, formatSizeLoop_exit _ _ _ _ (by omega)]; norm_num
  by_cases c4 : size / 1024 / 1024 / 1024 / 1024 / 1024 < 1024
  · refine ⟨4, by omega, by norm_num; omega, by norm_num; omega, fun fuel hf => ?_⟩
    obtain ⟨f, rfl⟩ := Nat.exists_eq_add_of_le hf
    rw [e6 f, formatSizeLoop_step _ _ _ _ (by omega) (by norm_num) (by norm_num)]
    rw [e5 f, formatSizeLoop_step _ _ _ _ (by omega) (by norm_num) (by norm_num)]
    rw [e4 f, formatSizeLoop_step _ _ _ _ (by omega) (by norm_num) (by norm_num)]
    rw [e3 f, formatSizeLoop_step _ _ _ _ (by omega) (by norm_num) (by norm_num)]
    rw [e2 f, formatSizeLoop_exit _ _ _ _ (by omega)]; norm_num
  · refine ⟨5, by omega, by norm_num; omega, by norm_num; omega, fun fuel hf => ?_⟩
    obtain ⟨f, rfl⟩ := Nat.exists_eq_add_of_le hf
    rw [e6 f, formatSizeLoop_step _ _ _ _ (by omega) (by norm_num) (by norm_num)]
    rw [e5 f, formatSizeLoop_step _ _ _ _ (by omega) (by norm_num) (by norm_num)]
    rw [e4 f, formatSizeLoop_step _ _ _ _ (by omega) (by norm_num) (by norm_num)]
    rw [e3 f, formatSizeLoop_step _ _ _ _ (by omega) (by norm_num) (by norm_num)]
    rw [e2 f, formatSizeLoop_step _ _ _ _ (by omega) (by norm_num) (by norm_num)]
    rw [formatSizeLoop_exit _ _ _ _ (by omega)]; norm_num

/-- The verb `%.1f` on `m / 2 ^ s` prints `whole.tenth` with one digit `tenth`, and
`whole.tenth` is within half a tenth of `m / 2 ^ s`. -/
theorem sprintfF1_rounds (m s : Nat) :
    ∃ whole tenth : Nat, tenth < 10 ∧
      sprintfF1 m s = Nat.repr whole ++ "." ++ Nat.repr tenth ∧
      2 * (10 * m) ≤ 2 * ((10 * whole + tenth) * 2 ^ s) + 2 ^ s ∧
      2 * ((10 * whole + tenth) * 2 ^ s) ≤ 2 * (10 * m) + 2 ^ s := by
  have hdm := Nat.div_add_mod (10 * m) (2 ^ s)
  have hlt : 10 * m % 2 ^ s < 2 ^ s := Nat.mod_lt _ (by positivity)
  by_cases hup : 2 * (10 * m % 2 ^ s) > 2 ^ s
      ∨ (2 * (10 * m % 2 ^ s) = 2 ^ s ∧ 10 * m / 2 ^ s % 2 = 1)
  · refine ⟨(10 * m / 2 ^ s + 1) / 10, (10 * m / 2 ^ s + 1) % 10, Nat.mod_lt _ (by norm_num),
      ?_, ?_, ?_⟩
    · simp only [sprintfF1, hup, if_true]; rfl
    · rw [Nat.div_add_mod (10 * m / 2 ^ s + 1) 10]
      have : (10 * m / 2 ^ s + 1) * 2 ^ s = 2 ^ s * (10 * m / 2 ^ s) + 2 ^ s := by ring
      rcases hup with h | h <;> omega
    · rw [Nat.div_add_mod (10 * m / 2 ^ s + 1) 10]
      have : (10 * m / 2 ^ s + 1) * 2 ^ s = 2 ^ s * (10 * m / 2 ^ s) + 2 ^ s := by ring
      rcases hup with h | h <;> omega
  · refine ⟨(10 * m / 2 ^ s) / 10, (10 * m / 2 ^ s) % 10, Nat.mod_lt _ (by norm_num),
      ?_, ?_, ?_⟩
    · simp only [sprintfF1, hup, if_false]; rfl
    · rw [Nat.div_add_mod (10 * m / 2 ^ s) 10]
      have : (10 * m / 2 ^ s) * 2 ^ s = 2 ^ s * (10 * m / 2 ^ s) := by ring
      omega
    · rw [Nat.div_add_mod (10 * m / 2 ^ s) 10]
      have : (10 * m / 2 ^ s) * 2 ^ s = 2 ^ s * (10 * m / 2 ^ s) := by ring
      push_neg at hup
      omega

/-- The shape of `formatSize` on an `int64` of at least 1024, for any fuel of at least
six iterations. -/
theorem formatSizeFuel_large (size : Int) (h1 : 1024 ≤ size) (h2 : size < 2 ^ 63) :
    ∃ (k : Nat) (c : Char), k ≤ 5 ∧ (1024 : Int) ^ (k + 1) ≤ size ∧ size < 1024 ^ (k + 2) ∧
      "KMGTPE".toList.get? k = some c ∧
      ∀ fuel : Nat, 6 ≤ fuel →
        formatSizeLoop fuel (size.tdiv unit) unit 0 = some (1024 ^ (k + 1), k) ∧
        formatSizeFuel fuel size
          = .ok (sprintfF1 (toFloat64 size.toNat) (10 * (k + 1)) ++ " " ++ String.singleton c
              ++ "B") := by
  obtain ⟨k, hk, hlo, hhi, hloop⟩ := formatSizeLoop_result size h1 h2
  have ht : size.tdiv unit = size / 1024 := Int.tdiv_eq_ediv (by omega) (by norm_num [unit])
  have hu : unit = 1024 := rfl
  have hns : ¬ size < unit := by rw [hu]; omega
  have hpos : 0 < size := by omega
  have hloop2 : ∀ fuel : Nat, 6 ≤ fuel →
      formatSizeLoop fuel (size.tdiv unit) unit 0 = some (1024 ^ (k + 1), k) := by
    intro fuel hf
    rw [ht, hu]; exact hloop fuel hf
  have key : ∀ j : Nat, j ≤ 5 → ∃ c : Char, "KMGTPE".toList.get? j = some c ∧
      (List.range 63).find? (fun s => decide ((1024 : Int) ^ (j + 1) = 2 ^ s))
        = some (10 * (j + 1)) := by
    intro j hj
    interval_cases j
    · exact ⟨'K', by decide, by decide⟩
    · exact ⟨'M', by decide, by decide⟩
    · exact ⟨'G', by decide, by decide⟩
    · exact ⟨'T', by decide, by decide⟩
    · exact ⟨'P', by decide, by decide⟩
    · exact ⟨'E', by decide, by decide⟩
  obtain ⟨c, hc, hfind⟩ := key k hk
  refine ⟨k, c, hk, hlo, hhi, hc, fun fuel hf => ⟨hloop2 fuel hf, ?_⟩⟩
  simp only [formatSizeFuel, hns, if_false, hloop2 fuel hf, hc, sprintfQuotient, hpos, if_true,
    hfind]

/-- Below `2 ^ 53` the conversion to `float64` is exact. -/
theorem toFloat64_exact (n : Nat) (h : n < 2 ^ 53) : toFloat64 n = n := by
  have hz : excessBits n n = 0 := by
    cases n with
    | zero => rfl
    | succ m => simp only [excessBits, h, if_true]
  simp only [toFloat64, hz, if_true]

/-- C5. `formatSize` renders a size from 0 to 1023 as its decimal digits followed by
" B", renders 1024 as "1.0 KB" and 1048576 as "1.0 MB"; for an `int64` size of at least
1024 it takes the largest power `1024 ^ k` not exceeding the size, `1 ≤ k ≤ 6`, and prints
the quotient of `float64(size)` by that power with exactly one decimal digit, rounded to
the nearest tenth, followed by a blank, the `k`-th letter of "KMGTPE" and "B"; the
conversion `float64(size)` is exact below `2 ^ 53`. -/
theorem formatSize_renders :
    (∀ n : Nat, n ≤ 1023 → formatSize (n : Int) = .ok (Nat.repr n ++ " B")) ∧
    formatSize 1024 = .ok "1.0 KB" ∧
    formatSize 1048576 = .ok "1.0 MB" ∧
    (∀ size : Int, 1024 ≤ size → size < 2 ^ 63 →
      ∃ (k whole tenth : Nat) (c : Char),
        1 ≤ k ∧ k ≤ 6 ∧ (1024 : Int) ^ k ≤ size ∧ size < 1024 ^ (k + 1) ∧
        "KMGTPE".toList.get? (k - 1) = some c ∧ tenth < 10 ∧
        formatSize size
          = .ok (Nat.repr whole ++ "." ++ Nat.repr tenth ++ " " ++ String.singleton c ++ "B") ∧
        2 * (10 * toFloat64 size.toNat) ≤ 2 * ((10 * whole + tenth) * 1024 ^ k) + 1024 ^ k ∧
        2 * ((10 * whole + tenth) * 1024 ^ k) ≤ 2 * (10 * toFloat64 size.toNat) + 1024 ^ k ∧
        (size < 2 ^ 53 → (toFloat64 size.toNat : Int) = size)) := by
  refine ⟨?_, by decide, by decide, ?_⟩
  · intro n hn
    have h : (n : Int) < unit := by unfold unit; omega
    simp only [formatSize, formatSizeFuel, h, if_true]
    rfl
  · intro size h1 h2
    obtain ⟨k, c, hk, hlo, hhi, hc, hfuel⟩ := formatSizeFuel_large size h1 h2
    obtain ⟨whole, tenth, ht, hs, hr1, hr2⟩ :=
      sprintfF1_rounds (toFloat64 size.toNat) (10 * (k + 1))
    have hp : (2 : Nat) ^ (10 * (k + 1)) = 1024 ^ (k + 1) := by
      rw [pow_mul]; norm_num
    rw [hp] at hr1 hr2
    refine ⟨k + 1, whole, tenth, c, by omega, by omega, hlo, hhi, by simpa using hc, ht, ?_,
      hr1, hr2, ?_⟩
    · rw [formatSize, (hfuel 64 (by norm_num)).2, hs]
    · intro h53
      have : size.toNat < 2 ^ 53 := by omega
      rw [toFloat64_exact _ this]
      omega

/-- C5, at the size 1536. -/
theorem formatSize_renders_witness :
    (1024 : Int) ≤ 1536 ∧ (1536 : Int) < 2 ^ 63 ∧
    ∃ (k whole tenth : Nat) (c : Char),
        1 ≤ k ∧ k ≤ 6 ∧ (1024 : Int) ^ k ≤ 1536 ∧ (1536 : Int) < 1024 ^ (k + 1) ∧
        "KMGTPE".toList.get? (k - 1) = some c ∧ tenth < 10 ∧
        formatSize 1536
          = .ok (Nat.repr whole ++ "." ++ Nat.repr tenth ++ " " ++ String.singleton c ++ "B") ∧
        2 * (10 * toFloat64 (1536 : Int).toNat)
          ≤ 2 * ((10 * whole + tenth) * 1024 ^ k) + 1024 ^ k ∧
        2 * ((10 * whole + tenth) * 1024 ^ k)
          ≤ 2 * (10 * toFloat64 (1536 : Int).toNat) + 1024 ^ k ∧
        ((1536 : Int) < 2 ^ 53 → (toFloat64 (1536 : Int).toNat : Int) = 1536) :=
  ⟨by decide, by decide, formatSize_renders.2.2.2 1536 (by decide) (by decide)⟩

/-- C10. `formatSize` is total on `int64`: below 1024, negative sizes included, the
"<n> B" branch is taken; from 1024 on the loop ends within six iterations whatever the
fuel, at an exponent `exp ≤ 5` that is a valid index into "KMGTPE", with `div` equal to
the power `1024 ^ (exp + 1) ≤ 1024 ^ 6 < 2 ^ 63` computed without wrap-around, and a
string is returned. -/
theorem formatSize_total (size : Int) (_hlo : -2 ^ 63 ≤ size) (hhi : size < 2 ^ 63) :
    (size < 1024 → formatSize size = .ok (toString size ++ " B")) ∧
    (1024 ≤ size → ∃ (exp : Nat) (c : Char) (str : String),
      exp ≤ 5 ∧ "KMGTPE".toList.get? exp = some c ∧
      (1024 : Int) ^ (exp + 1) ≤ 1024 ^ 6 ∧ (1024 : Int) ^ 6 < 2 ^ 63 ∧
      (∀ fuel : Nat, 6 ≤ fuel →
        formatSizeLoop fuel (size.tdiv unit) unit 0 = some (1024 ^ (exp + 1), exp) ∧
        formatSizeFuel fuel size = .ok str) ∧
      formatSize size = .ok str) := by
  constructor
  · intro h
    have h1 : size < unit := h
    simp only [formatSize, formatSizeFuel, h1, if_true]
  · intro h
    obtain ⟨k, c, hk, _, _, hc, hfuel⟩ := formatSizeFuel_large size h hhi
    refine ⟨k, c, _, hk, hc, ?_, by norm_num, hfuel, (hfuel 64 (by norm_num)).2⟩
    exact pow_le_pow_right₀ (by norm_num) (by omega)

/-- C10, at a negative size and at the largest `int64`. -/
theorem formatSize_total_witness :
    formatSize (-7) = .ok (toString (-7 : Int) ++ " B") ∧
    ∃ (exp : Nat) (c : Char) (str : String),
      exp ≤ 5 ∧ "KMGTPE".toList.get? exp = some c ∧
      (1024 : Int) ^ (exp + 1) ≤ 1024 ^ 6 ∧ (1024 : Int) ^ 6 < 2 ^ 63 ∧
      (∀ fuel : Nat, 6 ≤ fuel →
        formatSizeLoop fuel ((2 ^ 63 - 1 : Int).tdiv unit) unit 0 = some (1024 ^ (exp + 1), exp) ∧
        formatSizeFuel fuel (2 ^ 63 - 1) = .ok str) ∧
      formatSize (2 ^ 63 - 1) = .ok str :=
  ⟨(formatSize_total (-7) (by decide) (by decide)).1 (by decide),
    (formatSize_total (2 ^ 63 - 1) (by decide) (by decide)).2 (by decide)⟩

/-! ## Properties of the `Client` operations -/

theorem stopListed_log (d : Daemon σ) (cs : List Container) (s : σ) :
    (stopListed d cs s).log.map Event.call = cs.map fun c => Call.containerStop c.ID 10 := by
  induction cs generalizing s with
  | nil => rfl
  | cons c rest ih => simp [stopListed, Event.call, ih]

theorem stopListed_events (d : Daemon σ) (cs : List Container) (s : σ) :
    ∀ ev ∈ (stopListed d cs s).log, ∃ id e, ev = Event.containerStop id 10 e := by
  induction cs generalizing s with
  | nil => intro ev h; simp [stopListed] at h
  | cons c rest ih =>
    intro ev h
    simp only [stopListed, List.mem_cons] at h
    rcases h with h | h
    · exact ⟨_, _, h⟩
    · exact ih _ ev h

theorem stopListed_warns (d : Daemon σ) (cs : List Container) (s : σ) (id : String) (t : Nat)
    (e : String) (h : Event.containerStop id t (some e) ∈ (stopListed d cs s).log) :
    Output.warnStop id e ∈ (stopListed d cs s).out := by
  induction cs generalizing s with
  | nil => simp [stopListed] at h
  | cons c rest ih =>
    simp only [stopListed, List.mem_cons] at h
    simp only [stopListed, List.mem_append]
    rcases h with h | h
    · left
      injection h with h1 h2 h3
      rw [← h3, h1]
      simp
    · right
      exact ih _ h

theorem stopListed_out (d : Daemon σ) (cs : List Container) (s : σ) :
    (stopListed d cs s).out.filterMap Output.stats? = [] := by
  induction cs generalizing s with
  | nil => rfl
  | cons c rest ih =>
    simp only [stopListed, List.filterMap_append, ih, List.append_nil]
    cases (d.ContainerStop c.ID 10 s).1 <;> simp [Output.stats?]

theorem pruneContainers_log (d : Daemon σ) (s : σ) :
    (pruneContainers d s).log = [Event.containersPrune [] (d.ContainersPrune [] s).1] := by
  cases h : (d.ContainersPrune [] s).1 <;> simp [pruneContainers, h]

theorem pruneContainers_out (d : Daemon σ) (s : σ) : (pruneContainers d s).out = [] := by
  cases h : (d.ContainersPrune [] s).1 <;> simp [pruneContainers, h]

theorem pruneContainers_ok (d : Daemon σ) (s : σ) (report : ContainersPruneReport)
    (h : (d.ContainersPrune [] s).1 = .ok report) :
    (pruneContainers d s).res
      = .ok { ContainersRemoved := lenInt64 report.ContainersDeleted,
              SpaceReclaimed := report.SpaceReclaimed } := by
  simp [pruneContainers, h]

theorem pruneContainers_error (d : Daemon σ) (s : σ) (e : String)
    (h : (d.ContainersPrune [] s).1 = .error e) :
    (pruneContainers d s).res = .error ("failed to prune containers: " ++ e) := by
  simp [pruneContainers, h]

theorem pruneContainers_state (d : Daemon σ) (s : σ) :
    (pruneContainers d s).state = (d.ContainersPrune [] s).2 := by
  cases h : (d.ContainersPrune [] s).1 <;> simp [pruneContainers, h]

/-- The API calls of `CleanContainers`, by case. -/
theorem CleanContainers_log (d : Daemon σ) (all : Bool) (s : σ) :
    (CleanContainers d all s).log =
      if all then
        match (d.ContainerList false s).1 with
        | .error e => [Event.containerList false (.error e)]
        | .ok cs =>
          Event.containerList false (.ok cs)
            :: ((stopListed d cs (d.ContainerList false s).2).log
              ++ (pruneContainers d (stopListed d cs (d.ContainerList false s).2).state).log)
      else (pruneContainers d s).log := by
  cases all
  · simp [CleanContainers]
  · cases h : (d.ContainerList false s).1 <;> simp [CleanContainers, h]

theorem CleanContainers_res (d : Daemon σ) (all : Bool) (s : σ) :
    (CleanContainers d all s).res =
      if all then
        match (d.ContainerList false s).1 with
        | .error e => .error ("failed to list containers: " ++ e)
        | .ok cs => (pruneContainers d (stopListed d cs (d.ContainerList false s).2).state).res
      else (pruneContainers d s).res := by
  cases all
  · simp [CleanContainers]
  · cases h : (d.ContainerList false s).1 <;> simp [CleanContainers, h]

theorem CleanContainers_out (d : Daemon σ) (all : Bool) (s : σ) :
    (CleanContainers d all s).out.filterMap Output.stats? = [] := by
  cases all
  · simp [CleanContainers, pruneContainers_out]
  · cases h : (d.ContainerList false s).1 <;>
      simp [CleanContainers, h, pruneContainers_out, stopListed_out]

/-- A successful prune of containers that `CleanContainers` issued determines its result. -/
theorem CleanContainers_of_prune (d : Daemon σ) (all : Bool) (s : σ) (args : Filters)
    (report : ContainersPruneReport)
    (h : Event.containersPrune args (.ok report) ∈ (CleanContainers d all s).log) :
    (CleanContainers d all s).res
      = .ok { ContainersRemoved := lenInt64 report.ContainersDeleted,
              SpaceReclaimed := report.SpaceReclaimed } := by
  rw [CleanContainers_log] at h
  rw [CleanContainers_res]
  cases all
  · simp only [Bool.false_eq_true, if_false, pruneContainers_log, List.mem_singleton] at h ⊢
    injection h with h1 h2
    exact pruneContainers_ok d s report h2.symm
  · simp only [if_true] at h ⊢
    cases hl : (d.ContainerList false s).1 with
    | error e => simp [hl] at h
    | ok cs =>
      simp only [hl, List.mem_cons, List.mem_append, pruneContainers_log,
        List.mem_singleton] at h ⊢
      rcases h with h | h | h | h
      · cases h
      · obtain ⟨id, e, he⟩ := stopListed_events d cs _ _ h
        cases he
      · injection h with h1 h2
        exact pruneContainers_ok d _ report h2.symm
      · cases h

theorem CleanImages_log (d : Daemon σ) (dangling : Bool) (s : σ) :
    (CleanImages d dangling s).log
      = [Event.imagesPrune (if dangling then [("dangling", "true")] else [])
          (d.ImagesPrune (if dangling then [("dangling", "true")] else []) s).1] := by
  cases h : (d.ImagesPrune (if dangling then [("dangling", "true")] else []) s).1 <;>
    simp [CleanImages, h]

theorem CleanImages_out (d : Daemon σ) (dangling : Bool) (s : σ) :
    (CleanImages d dangling s).out = [] := by
  cases h : (d.ImagesPrune (if dangling then [("dangling", "true")] else []) s).1 <;>
    simp [CleanImages, h]

theorem CleanImages_res (d : Daemon σ) (dangling : Bool) (s : σ) :
    (CleanImages d dangling s).res =
      match (d.ImagesPrune (if dangling then [("dangling", "true")] else []) s).1 with
      | .error e => .error ("failed to prune images: " ++ e)
      | .ok report => .ok { ImagesRemoved := lenInt64 report.ImagesDeleted,
                            SpaceReclaimed := addUint64 0 report.SpaceReclaimed } := by
  cases h : (d.ImagesPrune (if dangling then [("dangling", "true")] else []) s).1 <;>
    simp [CleanImages, h]

theorem CleanVolumes_log (d : Daemon σ) (s : σ) :
    (CleanVolumes d s).log = [Event.volumesPrune [] (d.VolumesPrune [] s).1] := by
  cases h : (d.VolumesPrune [] s).1 <;> simp [CleanVolumes, h]

theorem CleanVolumes_out (d : Daemon σ) (s : σ) : (CleanVolumes d s).out = [] := by
  cases h : (d.VolumesPrune [] s).1 <;> simp [CleanVolumes, h]

theorem CleanVolumes_res (d : Daemon σ) (s : σ) :
    (CleanVolumes d s).res =
      match (d.VolumesPrune [] s).1 with
      | .error e => .error ("failed to prune volumes: " ++ e)
      | .ok report => .ok { VolumesRemoved := lenInt64 report.VolumesDeleted,
                            SpaceReclaimed := addUint64 0 report.SpaceReclaimed } := by
  cases h : (d.VolumesPrune [] s).1 <;> simp [CleanVolumes, h]

theorem CleanNetworks_log (d : Daemon σ) (s : σ) :
    (CleanNetworks d s).log = [Event.networksPrune [] (d.NetworksPrune [] s).1] := by
  cases h : (d.NetworksPrune [] s).1 <;> simp [CleanNetworks, h]

theorem CleanNetworks_out (d : Daemon σ) (s : σ) : (CleanNetworks d s).out = [] := by
  cases h : (d.NetworksPrune [] s).1 <;> simp [CleanNetworks, h]

theorem CleanNetworks_res (d : Daemon σ) (s : σ) :
    (CleanNetworks d s).res =
      match (d.NetworksPrune [] s).1 with
      | .error e => .error ("failed to prune networks: " ++ e)
      | .ok report => .ok { NetworksRemoved := lenInt64 report.NetworksDeleted } := by
  cases h : (d.NetworksPrune [] s).1 <;> simp [CleanNetworks, h]

/-- A successful prune call found in the log of an operation determines the result of
that operation. -/
theorem prune_event_determines_result (d : Daemon σ) (s : σ) (all dangling : Bool)
    (args : Filters) :
    (∀ report, Event.containersPrune args (.ok report) ∈ (CleanContainers d all s).log →
      ∃ st, (CleanContainers d all s).res = .ok st ∧
        st.count Kind.containers = (report.ContainersDeleted.length : Int) ∧
        0 ≤ st.count Kind.containers ∧
        (report.ContainersDeleted = [] → st.count Kind.containers = 0) ∧
        ∀ k, k ≠ Kind.containers → st.count k = 0) ∧
    (∀ report, Event.imagesPrune args (.ok report) ∈ (CleanImages d dangling s).log →
      ∃ st, (CleanImages d dangling s).res = .ok st ∧
        st.count Kind.images = (report.ImagesDeleted.length : Int) ∧
        0 ≤ st.count Kind.images ∧
        (report.ImagesDeleted = [] → st.count Kind.images = 0) ∧
        ∀ k, k ≠ Kind.images → st.count k = 0) ∧
    (∀ report, Event.volumesPrune args (.ok report) ∈ (CleanVolumes d s).log →
      ∃ st, (CleanVolumes d s).res = .ok st ∧
        st.count Kind.volumes = (report.VolumesDeleted.length : Int) ∧
        0 ≤ st.count Kind.volumes ∧
        (report.VolumesDeleted = [] → st.count Kind.volumes = 0) ∧
        ∀ k, k ≠ Kind.volumes → st.count k = 0) ∧
    (∀ report, Event.networksPrune args (.ok report) ∈ (CleanNetworks d s).log →
      ∃ st, (CleanNetworks d s).res = .ok st ∧
        st.count Kind.networks = (report.NetworksDeleted.length : Int) ∧
        0 ≤ st.count Kind.networks ∧
        (report.NetworksDeleted = [] → st.count Kind.networks = 0) ∧
        ∀ k, k ≠ Kind.networks → st.count k = 0) := by
  refine ⟨?_, ?_, ?_, ?_⟩
  · intro report h
    refine ⟨_, CleanContainers_of_prune d all s args report h, rfl, ?_, ?_, ?_⟩
    · simp [CleanupStats.count, lenInt64]
    · intro h0; simp [CleanupStats.count, lenInt64, h0]
    · intro k hk; cases k <;> simp_all [CleanupStats.count]
  · intro report h
    rw [CleanImages_log, List.mem_singleton] at h
    injection h with h1 h2
    rw [CleanImages_res, ← h2]
    refine ⟨_, rfl, rfl, ?_, ?_, ?_⟩
    · simp [CleanupStats.count, lenInt64]
    · intro h0; simp [CleanupStats.count, lenInt64, h0]
    · intro k hk; cases k <;> simp_all [CleanupStats.count]
  · intro report h
    rw [CleanVolumes_log, List.mem_singleton] at h
    injection h with h1 h2
    rw [CleanVolumes_res, ← h2]
    refine ⟨_, rfl, rfl, ?_, ?_, ?_⟩
    · simp [CleanupStats.count, lenInt64]
    · intro h0; simp [CleanupStats.count, lenInt64, h0]
    · intro k hk; cases k <;> simp_all [CleanupStats.count]
  · intro report h
    rw [CleanNetworks_log, List.mem_singleton] at h
    injection h with h1 h2
    rw [CleanNetworks_res, ← h2]
    refine ⟨_, rfl, rfl, ?_, ?_, ?_⟩
    · simp [CleanupStats.count, lenInt64]
    · intro h0; simp [CleanupStats.count, lenInt64, h0]
    · intro k hk; cases k <;> simp_all [CleanupStats.count]

/-- C8. Each of `CleanContainers`, `CleanImages`, `CleanVolumes` and `CleanNetworks`
issues the prune call of its kind, and whenever the engine answers that call with a
report, the operation returns statistics and no error: the count of its own kind is the
number of entries of the deleted list of the report, hence not negative, and `0` when
that list is empty, and the counts of the three other kinds are `0`.  For
`CleanContainers` this holds in both modes; with `all = true` the prune call is the one
issued after the list and the stop requests, and when the list fails no prune call is
issued at all. -/
theorem clean_count_is_deleted_length (d : Daemon σ) (s : σ) (dangling : Bool) :
    (∀ report, (d.ContainersPrune [] s).1 = .ok report →
      (CleanContainers d false s).log = [Event.containersPrune [] (.ok report)] ∧
      ∃ st, (CleanContainers d false s).res = .ok st ∧
        st.count Kind.containers = (report.ContainersDeleted.length : Int) ∧
        0 ≤ st.count Kind.containers ∧
        (report.ContainersDeleted = [] → st.count Kind.containers = 0) ∧
        ∀ k, k ≠ Kind.containers → st.count k = 0) ∧
    (∀ cs report, (d.ContainerList false s).1 = .ok cs →
      (d.ContainersPrune [] (stopListed d cs (d.ContainerList false s).2).state).1 = .ok report →
      (CleanContainers d true s).log
        = Event.containerList false (.ok cs)
            :: ((stopListed d cs (d.ContainerList false s).2).log
              ++ [Event.containersPrune [] (.ok report)]) ∧
      ∃ st, (CleanContainers d true s).res = .ok st ∧
        st.count Kind.containers = (report.ContainersDeleted.length : Int) ∧
        0 ≤ st.count Kind.containers ∧
        (report.ContainersDeleted = [] → st.count Kind.containers = 0) ∧
        ∀ k, k ≠ Kind.containers → st.count k = 0) ∧
    (∀ e, (d.ContainerList false s).1 = .error e →
      prunedKinds (CleanContainers d true s).log = []) ∧
    (∀ report, (d.ImagesPrune (if dangling then [("dangling", "true")] else []) s).1 = .ok report →
      (CleanImages d dangling s).log
        = [Event.imagesPrune (if dangling then [("dangling", "true")] else []) (.ok report)] ∧
      ∃ st, (CleanImages d dangling s).res = .ok st ∧
        st.count Kind.images = (report.ImagesDeleted.length : Int) ∧
        0 ≤ st.count Kind.images ∧
        (report.ImagesDeleted = [] → st.count Kind.images = 0) ∧
        ∀ k, k ≠ Kind.images → st.count k = 0) ∧
    (∀ report, (d.VolumesPrune [] s).1 = .ok report →
      (CleanVolumes d s).log = [Event.volumesPrune [] (.ok report)] ∧
      ∃ st, (CleanVolumes d s).res = .ok st ∧
        st.count Kind.volumes = (report.VolumesDeleted.length : Int) ∧
        0 ≤ st.count Kind.volumes ∧
        (report.VolumesDeleted = [] → st.count Kind.volumes = 0) ∧
        ∀ k, k ≠ Kind.volumes → st.count k = 0) ∧
    (∀ report, (d.NetworksPrune [] s).1 = .ok report →
      (CleanNetworks d s).log = [Event.networksPrune [] (.ok report)] ∧
      ∃ st, (CleanNetworks d s).res = .ok st ∧
        st.count Kind.networks = (report.NetworksDeleted.length : Int) ∧
        0 ≤ st.count Kind.networks ∧
        (report.NetworksDeleted = [] → st.count Kind.networks = 0) ∧
        ∀ k, k ≠ Kind.networks → st.count k = 0) := by
  refine ⟨?_, ?_, ?_, ?_, ?_, ?_⟩
  · intro report h
    refine ⟨by simp [CleanContainers_log, pruneContainers_log, h],
      { ContainersRemoved := lenInt64 report.ContainersDeleted,
        SpaceReclaimed := report.SpaceReclaimed }, ?_, rfl, ?_, ?_, ?_⟩
    · rw [CleanContainers_res]
      exact pruneContainers_ok d s report h
    · simp [CleanupStats.count, lenInt64]
    · intro h0; simp [CleanupStats.count, lenInt64, h0]
    · intro k hk; cases k <;> simp_all [CleanupStats.count]
  · intro cs report hl h
    refine ⟨by simp [CleanContainers_log, pruneContainers_log, hl, h],
      { ContainersRemoved := lenInt64 report.ContainersDeleted,
        SpaceReclaimed := report.SpaceReclaimed }, ?_, rfl, ?_, ?_, ?_⟩
    · rw [CleanContainers_res]
      simp only [if_true, hl]
      exact pruneContainers_ok d _ report h
    · simp [CleanupStats.count, lenInt64]
    · intro h0; simp [CleanupStats.count, lenInt64, h0]
    · intro k hk; cases k <;> simp_all [CleanupStats.count]
  · intro e he
    simp [CleanContainers_log, he, prunedKinds, Event.prunedKind]
  · intro report h
    refine ⟨by rw [CleanImages_log, h],
      { ImagesRemoved := lenInt64 report.ImagesDeleted,
        SpaceReclaimed := addUint64 0 report.SpaceReclaimed },
      by rw [CleanImages_res, h], rfl, ?_, ?_, ?_⟩
    · simp [CleanupStats.count, lenInt64]
    · intro h0; simp [CleanupStats.count, lenInt64, h0]
    · intro k hk; cases k <;> simp_all [CleanupStats.count]
  · intro report h
    refine ⟨by rw [CleanVolumes_log, h],
      { VolumesRemoved := lenInt64 report.VolumesDeleted,
        SpaceReclaimed := addUint64 0 report.SpaceReclaimed },
      by rw [CleanVolumes_res, h], rfl, ?_, ?_, ?_⟩
    · simp [CleanupStats.count, lenInt64]
    · intro h0; simp [CleanupStats.count, lenInt64, h0]
    · intro k hk; cases k <;> simp_all [CleanupStats.count]
  · intro report h
    refine ⟨by rw [CleanNetworks_log, h],
      { NetworksRemoved := lenInt64 report.NetworksDeleted },
      by rw [CleanNetworks_res, h], rfl, ?_, ?_, ?_⟩
    · simp [CleanupStats.count, lenInt64]
    · intro h0; simp [CleanupStats.count, lenInt64, h0]
    · intro k hk; cases k <;> simp_all [CleanupStats.count]

/-- C8, for the four operations on `healthyDaemon`, with `CleanContainers` in both modes,
and for `CleanNetworks` on an engine that has nothing to remove. -/
theorem clean_count_is_deleted_length_witness :
    ((healthyDaemon.ContainersPrune [] ()).1 = .ok ⟨[web.ID], 4096⟩ ∧
      (CleanContainers healthyDaemon false ()).log
        = [Event.containersPrune [] (.ok ⟨[web.ID], 4096⟩)] ∧
      ∃ st, (CleanContainers healthyDaemon false ()).res = .ok st ∧
        st.count Kind.containers = (([web.ID] : List String).length : Int) ∧
        0 ≤ st.count Kind.containers ∧
        (([web.ID] : List String) = [] → st.count Kind.containers = 0) ∧
        ∀ k, k ≠ Kind.containers → st.count k = 0) ∧
    ((healthyDaemon.ContainerList false ()).1 = .ok [web] ∧
      (healthyDaemon.ContainersPrune []
          (stopListed healthyDaemon [web] (healthyDaemon.ContainerList false ()).2).state).1
        = .ok ⟨[web.ID], 4096⟩ ∧
      (CleanContainers healthyDaemon true ()).log
        = Event.containerList false (.ok [web])
            :: ((stopListed healthyDaemon [web] (healthyDaemon.ContainerList false ()).2).log
              ++ [Event.containersPrune [] (.ok ⟨[web.ID], 4096⟩)]) ∧
      ∃ st, (CleanContainers healthyDaemon true ()).res = .ok st ∧
        st.count Kind.containers = (([web.ID] : List String).length : Int) ∧
        0 ≤ st.count Kind.containers ∧
        (([web.ID] : List String) = [] → st.count Kind.containers = 0) ∧
        ∀ k, k ≠ Kind.containers → st.count k = 0) ∧
    ((healthyDaemon.ImagesPrune (if true then [("dangling", "true")] else []) ()).1
        = .ok ⟨[⟨"sha256:1f", ""⟩, ⟨"", "app:old"⟩], 100⟩ ∧
      (CleanImages healthyDaemon true ()).log
        = [Event.imagesPrune (if true then [("dangling", "true")] else [])
            (.ok ⟨[⟨"sha256:1f", ""⟩, ⟨"", "app:old"⟩], 100⟩)] ∧
      ∃ st, (CleanImages healthyDaemon true ()).res = .ok st ∧
        st.count Kind.images = (([⟨"sha256:1f", ""⟩, ⟨"", "app:old"⟩] : List DeleteResponse).length : Int) ∧
        0 ≤ st.count Kind.images ∧
        (([⟨"sha256:1f", ""⟩, ⟨"", "app:old"⟩] : List DeleteResponse) = [] → st.count Kind.images = 0) ∧
        ∀ k, k ≠ Kind.images → st.count k = 0) ∧
    ((healthyDaemon.VolumesPrune [] ()).1 = .ok ⟨["cache"], 20⟩ ∧
      (CleanVolumes healthyDaemon ()).log = [Event.volumesPrune [] (.ok ⟨["cache"], 20⟩)] ∧
      ∃ st, (CleanVolumes healthyDaemon ()).res = .ok st ∧
        st.count Kind.volumes = ((["cache"] : List String).length : Int) ∧
        0 ≤ st.count Kind.volumes ∧
        ((["cache"] : List String) = [] → st.count Kind.volumes = 0) ∧
        ∀ k, k ≠ Kind.volumes → st.count k = 0) ∧
    ((healthyDaemon.NetworksPrune [] ()).1 = .ok ⟨["backend"]⟩ ∧
      (CleanNetworks healthyDaemon ()).log = [Event.networksPrune [] (.ok ⟨["backend"]⟩)] ∧
      ∃ st, (CleanNetworks healthyDaemon ()).res = .ok st ∧
        st.count Kind.networks = ((["backend"] : List String).length : Int) ∧
        0 ≤ st.count Kind.networks ∧
        ((["backend"] : List String) = [] → st.count Kind.networks = 0) ∧
        ∀ k, k ≠ Kind.networks → st.count k = 0) ∧
    ((emptyDaemon.NetworksPrune [] ()).1 = .ok ⟨[]⟩ ∧
      (CleanNetworks emptyDaemon ()).log = [Event.networksPrune [] (.ok ⟨[]⟩)] ∧
      ∃ st, (CleanNetworks emptyDaemon ()).res = .ok st ∧
        st.count Kind.networks = (([] : List String).length : Int) ∧
        0 ≤ st.count Kind.networks ∧
        (([] : List String) = [] → st.count Kind.networks = 0) ∧
        ∀ k, k ≠ Kind.networks → st.count k = 0) :=
  ⟨⟨by decide, (clean_count_is_deleted_length healthyDaemon () true).1 ⟨[web.ID], 4096⟩
      (by decide)⟩,
   ⟨by decide, by decide, (clean_count_is_deleted_length healthyDaemon () true).2.1 [web]
      ⟨[web.ID], 4096⟩ (by decide) (by decide)⟩,
   ⟨by decide, (clean_count_is_deleted_length healthyDaemon () true).2.2.2.1
      ⟨[⟨"sha256:1f", ""⟩, ⟨"", "app:old"⟩], 100⟩ (by decide)⟩,
   ⟨by decide, (clean_count_is_deleted_length healthyDaemon () true).2.2.2.2.1 ⟨["cache"], 20⟩
      (by decide)⟩,
   ⟨by decide, (clean_count_is_deleted_length healthyDaemon () true).2.2.2.2.2 ⟨["backend"]⟩
      (by decide)⟩,
   ⟨by decide, (clean_count_is_deleted_length emptyDaemon () true).2.2.2.2.2 ⟨[]⟩ (by decide)⟩⟩

/-- C6. `CleanAll` returns statistics and never an error, whatever the four steps do.
Each count of the result is the count that the step of that kind reported, and `0` when
that step failed; when the four steps fail the result is all zero, bytes included.  All
four steps are run, each from the engine state left by the one before. -/
theorem CleanAll_always_returns (d : Daemon σ) (s : σ) :
    let c := ForceCleanContainers d s
    let i := CleanImages d false c.state
    let v := CleanVolumes d i.state
    let n := CleanNetworks d v.state
    ∃ t : CleanupStats,
      (CleanAll d s).res = .ok t ∧
      t.count Kind.containers = reportedCount c.res Kind.containers ∧
      t.count Kind.images = reportedCount i.res Kind.images ∧
      t.count Kind.volumes = reportedCount v.res Kind.volumes ∧
      t.count Kind.networks = reportedCount n.res Kind.networks ∧
      ((failed c.res && failed i.res && failed v.res && failed n.res) = true → t = {}) ∧
      (CleanAll d s).log = c.log ++ (i.log ++ (v.log ++ n.log)) := by
  intro c i v n
  refine ⟨_, rfl, ?_, ?_, ?_, ?_, ?_, rfl⟩
  · show CleanupStats.count _ _ = reportedCount (ForceCleanContainers d s).res _
    cases (ForceCleanContainers d s).res <;>
    cases (CleanImages d false (ForceCleanContainers d s).state).res <;>
    cases (CleanVolumes d (CleanImages d false (ForceCleanContainers d s).state).state).res <;>
    cases (CleanNetworks d (CleanVolumes d
      (CleanImages d false (ForceCleanContainers d s).state).state).state).res <;> rfl
  · show CleanupStats.count _ _
      = reportedCount (CleanImages d false (ForceCleanContainers d s).state).res _
    cases (ForceCleanContainers d s).res <;>
    cases (CleanImages d false (ForceCleanContainers d s).state).res <;>
    cases (CleanVolumes d (CleanImages d false (ForceCleanContainers d s).state).state).res <;>
    cases (CleanNetworks d (CleanVolumes d
      (CleanImages d false (ForceCleanContainers d s).state).state).state).res <;> rfl
  · show CleanupStats.count _ _
      = reportedCount (CleanVolumes d (CleanImages d false
          (ForceCleanContainers d s).state).state).res _
    cases (ForceCleanContainers d s).res <;>
    cases (CleanImages d false (ForceCleanContainers d s).state).res <;>
    cases (CleanVolumes d (CleanImages d false (ForceCleanContainers d s).state).state).res <;>
    cases (CleanNetworks d (CleanVolumes d
      (CleanImages d false (ForceCleanContainers d s).state).state).state).res <;> rfl
  · show CleanupStats.count _ _
      = reportedCount (CleanNetworks d (CleanVolumes d (CleanImages d false
          (ForceCleanContainers d s).state).state).state).res _
    cases (ForceCleanContainers d s).res <;>
    cases (CleanImages d false (ForceCleanContainers d s).state).res <;>
    cases (CleanVolumes d (CleanImages d false (ForceCleanContainers d s).state).state).res <;>
    cases (CleanNetworks d (CleanVolumes d
      (CleanImages d false (ForceCleanContainers d s).state).state).state).res <;> rfl
  · show (failed (ForceCleanContainers d s).res
        && failed (CleanImages d false (ForceCleanContainers d s).state).res
        && failed (CleanVolumes d (CleanImages d false
            (ForceCleanContainers d s).state).state).res
        && failed (CleanNetworks d (CleanVolumes d (CleanImages d false
            (ForceCleanContainers d s).state).state).state).res) = true → _
    cases (ForceCleanContainers d s).res <;>
    cases (CleanImages d false (ForceCleanContainers d s).state).res <;>
    cases (CleanVolumes d (CleanImages d false (ForceCleanContainers d s).state).state).res <;>
    cases (CleanNetworks d (CleanVolumes d
      (CleanImages d false (ForceCleanContainers d s).state).state).state).res <;>
    simp [failed]

/-- C6, at an engine on which every list and prune call fails. -/
theorem CleanAll_always_returns_witness :
    (failed (ForceCleanContainers brokenDaemon ()).res
      && failed (CleanImages brokenDaemon false ()).res
      && failed (CleanVolumes brokenDaemon ()).res
      && failed (CleanNetworks brokenDaemon ()).res) = true ∧
    ∃ t : CleanupStats,
      (CleanAll brokenDaemon ()).res = .ok t ∧
      t.count Kind.containers = reportedCount (ForceCleanContainers brokenDaemon ()).res
        Kind.containers ∧
      t.count Kind.images = reportedCount (CleanImages brokenDaemon false ()).res Kind.images ∧
      t.count Kind.volumes = reportedCount (CleanVolumes brokenDaemon ()).res Kind.volumes ∧
      t.count Kind.networks = reportedCount (CleanNetworks brokenDaemon ()).res Kind.networks ∧
      ((failed (ForceCleanContainers brokenDaemon ()).res
        && failed (CleanImages brokenDaemon false ()).res
        && failed (CleanVolumes brokenDaemon ()).res
        && failed (CleanNetworks brokenDaemon ()).res) = true → t = {}) ∧
      (CleanAll brokenDaemon ()).log
        = (ForceCleanContainers brokenDaemon ()).log ++ ((CleanImages brokenDaemon false ()).log
          ++ ((CleanVolumes brokenDaemon ()).log ++ (CleanNetworks brokenDaemon ()).log)) :=
  ⟨by decide, CleanAll_always_returns brokenDaemon ()⟩

/-- C4, refuted as stated: on an engine whose container does not stop in time,
`CleanContainers` in the `all` mode issues the list call, the stop call that fails and the
prune call, and no kill call. -/
theorem CleanContainers_stop_failure_no_kill :
    (CleanContainers stubbornDaemon true ()).log
      = [Event.containerList false (.ok [web]),
         Event.containerStop web.ID 10 (some "context deadline exceeded"),
         Event.containersPrune [] (.ok ⟨[], 0⟩)] ∧
    (CleanContainers stubbornDaemon true ()).log.any Event.isKill = false ∧
    (CleanContainers stubbornDaemon true ()).out
      = [Output.warnStop web.ID "context deadline exceeded"] := by
  decide

/-- C4, amended. `CleanContainers` with `all = false` issues a single API call, a prune
of containers without filter.  With `all = true` it first lists the running containers;
when the list fails it issues no other call and returns the list error; otherwise it
sends every listed container one stop request with a timeout of 10 seconds, in the order
of the list, and issues the prune of containers after all of them.  A stop that fails is
reported by a warning.  In neither mode is a kill signal sent. -/
theorem CleanContainers_calls (d : Daemon σ) (s : σ) :
    (CleanContainers d false s).log.map Event.call = [Call.containersPrune []] ∧
    (∀ e, (d.ContainerList false s).1 = .error e →
      (CleanContainers d true s).log.map Event.call = [Call.containerList false] ∧
      (CleanContainers d true s).res = .error ("failed to list containers: " ++ e)) ∧
    (∀ cs, (d.ContainerList false s).1 = .ok cs →
      (CleanContainers d true s).log.map Event.call
        = Call.containerList false
            :: ((cs.map fun c => Call.containerStop c.ID 10) ++ [Call.containersPrune []])) ∧
    (∀ id t e, Event.containerStop id t (some e) ∈ (CleanContainers d true s).log →
      Output.warnStop id e ∈ (CleanContainers d true s).out) ∧
    (∀ all, ∀ ev ∈ (CleanContainers d all s).log, ev.isKill = false) := by
  refine ⟨?_, ?_, ?_, ?_, ?_⟩
  · simp [CleanContainers_log, pruneContainers_log, Event.call]
  · intro e he
    simp [CleanContainers_log, CleanContainers_res, he, Event.call]
  · intro cs hcs
    simp [CleanContainers_log, hcs, pruneContainers_log, Event.call, stopListed_log]
  · intro id t e h
    cases hl : (d.ContainerList false s).1 with
    | error e0 => simp [CleanContainers_log, hl] at h
    | ok cs =>
      simp only [CleanContainers_log, if_true, hl, List.mem_cons, List.mem_append,
        pruneContainers_log, List.mem_singleton] at h
      have hout : (CleanContainers d true s).out
          = (stopListed d cs (d.ContainerList false s).2).out := by
        simp [CleanContainers, hl, pruneContainers_out]
      rw [hout]
      rcases h with h | h | h | h
      · cases h
      · exact stopListed_warns d cs _ id t e h
      · cases h
      · cases h
  · intro all ev h
    rw [CleanContainers_log] at h
    cases all
    · simp only [Bool.false_eq_true, if_false, pruneContainers_log, List.mem_singleton] at h
      rw [h]; rfl
    · cases hl : (d.ContainerList false s).1 with
      | error e0 =>
        simp only [if_true, hl, List.mem_singleton] at h
        rw [h]; rfl
      | ok cs =>
        simp only [if_true, hl, List.mem_cons, List.mem_append, pruneContainers_log,
          List.mem_singleton] at h
        rcases h with h | h | h | h
        · rw [h]; rfl
        · obtain ⟨i, e, he⟩ := stopListed_events d cs _ ev h
          rw [he]; rfl
        · rw [h]; rfl
        · cases h

/-- C4 amended, at the engine whose container does not stop in time. -/
theorem CleanContainers_calls_witness :
    (stubbornDaemon.ContainerList false ()).1 = .ok [web] ∧
    (CleanContainers stubbornDaemon true ()).log.map Event.call
      = Call.containerList false
          :: (([web].map fun c => Call.containerStop c.ID 10) ++ [Call.containersPrune []]) :=
  ⟨by decide, (CleanContainers_calls stubbornDaemon ()).2.2.1 [web] (by decide)⟩

/-! ## Properties of `runClean` -/

theorem Run.andThen_error {α β : Type} (r : Run σ (Except String α))
    (next : α → σ → Run σ (Except String β)) (e : String) (h : r.res = .error e) :
    r.andThen next = ⟨.error e, r.state, r.log, r.out⟩ := by
  simp [Run.andThen, h]

theorem Run.andThen_ok {α β : Type} (r : Run σ (Except String α))
    (next : α → σ → Run σ (Except String β)) (a : α) (h : r.res = .ok a) :
    r.andThen next
      = ⟨(next a r.state).res, (next a r.state).state, r.log ++ (next a r.state).log,
          r.out ++ (next a r.state).out⟩ := by
  simp [Run.andThen, h]

theorem Run.andThen_stops {α β : Type} (r : Run σ (Except String α))
    (next : α → σ → Run σ (Except String β)) (k1 k2 : List Kind)
    (h1 : r.StopsAtFailure k1) (h2 : ∀ a s, (next a s).StopsAtFailure k2) :
    (r.andThen next).StopsAtFailure (k1 ++ k2) := by
  rcases h1 with ⟨a, ha, hlog, hk⟩ | ⟨e, before, ev, he, hlog, hev, hbefore⟩
  · rw [Run.andThen_ok r next a ha]
    rcases h2 a r.state with ⟨b, hb, hlog2, hk2⟩ | ⟨e, before, ev, he, hlog2, hev, hbefore⟩
    · left
      refine ⟨b, hb, ?_, ?_⟩
      · intro x hx
        rcases List.mem_append.mp hx with hx | hx
        · exact hlog x hx
        · exact hlog2 x hx
      · show prunedKinds (r.log ++ (next a r.state).log) = k1 ++ k2
        rw [← hk, ← hk2]
        simp [prunedKinds]
    · right
      refine ⟨e, r.log ++ before, ev, he, ?_, hev, ?_⟩
      · show r.log ++ (next a r.state).log = r.log ++ before ++ [ev]
        rw [hlog2, List.append_assoc]
      · intro x hx
        rcases List.mem_append.mp hx with hx | hx
        · exact hlog x hx
        · exact hbefore x hx
  · rw [Run.andThen_error r next e he]
    right
    exact ⟨e, before, ev, rfl, hlog, hev, hbefore⟩

theorem stopListed_not_failed (d : Daemon σ) (cs : List Container) (s : σ) :
    ∀ ev ∈ (stopListed d cs s).log, ev.isFailedStep = false := by
  intro ev h
  obtain ⟨id, e, he⟩ := stopListed_events d cs s ev h
  rw [he]; rfl

theorem stopListed_prunedKinds (d : Daemon σ) (cs : List Container) (s : σ) :
    prunedKinds (stopListed d cs s).log = [] := by
  induction cs generalizing s with
  | nil => rfl
  | cons c rest ih =>
    have := ih (d.ContainerStop c.ID 10 s).2
    simp only [prunedKinds] at this
    simp [stopListed, prunedKinds, Event.prunedKind, this]

theorem CleanContainers_stops (d : Daemon σ) (all : Bool) (s : σ) :
    (CleanContainers d all s).StopsAtFailure [Kind.containers] := by
  unfold Run.StopsAtFailure
  rw [CleanContainers_log, CleanContainers_res]
  cases all
  · simp only [Bool.false_eq_true, if_false, pruneContainers_log]
    cases hp : (d.ContainersPrune [] s).1 with
    | error e =>
      right
      exact ⟨_, [], _, pruneContainers_error d s e hp, rfl, rfl, by simp⟩
    | ok report =>
      left
      refine ⟨_, pruneContainers_ok d s report hp, ?_, rfl⟩
      intro ev hev
      rw [List.mem_singleton.mp hev]; rfl
  · simp only [if_true]
    cases hl : (d.ContainerList false s).1 with
    | error e =>
      right
      exact ⟨_, [], _, rfl, rfl, rfl, by simp⟩
    | ok cs =>
      simp only [pruneContainers_log]
      cases hp : (d.ContainersPrune [] (stopListed d cs (d.ContainerList false s).2).state).1 with
      | error e =>
        right
        refine ⟨_, Event.containerList false (.ok cs)
          :: (stopListed d cs (d.ContainerList false s).2).log,
          Event.containersPrune [] (.error e),
          pruneContainers_error d _ e hp, rfl, rfl, ?_⟩
        intro x hx
        rcases List.mem_cons.mp hx with hx | hx
        · rw [hx]; rfl
        · exact stopListed_not_failed d cs _ x hx
      | ok report =>
        left
        refine ⟨_, pruneContainers_ok d _ report hp, ?_, ?_⟩
        · intro x hx
          rcases List.mem_cons.mp hx with hx | hx
          · rw [hx]; rfl
          · rcases List.mem_append.mp hx with hx | hx
            · exact stopListed_not_failed d cs _ x hx
            · rw [List.mem_singleton.mp hx]; rfl
        · have := stopListed_prunedKinds d cs (d.ContainerList false s).2
          simp only [prunedKinds] at this
          simp [prunedKinds, Event.prunedKind, this]

theorem CleanImages_stops (d : Daemon σ) (dangling : Bool) (s : σ) :
    (CleanImages d dangling s).StopsAtFailure [Kind.images] := by
  unfold Run.StopsAtFailure
  rw [CleanImages_log, CleanImages_res]
  cases hp : (d.ImagesPrune (if dangling then [("dangling", "true")] else []) s).1 with
  | error e => right; exact ⟨_, [], _, rfl, rfl, rfl, by simp⟩
  | ok report =>
    left
    refine ⟨_, rfl, ?_, rfl⟩
    intro ev hev
    rw [List.mem_singleton.mp hev]; rfl

theorem CleanVolumes_stops (d : Daemon σ) (s : σ) :
    (CleanVolumes d s).StopsAtFailure [Kind.volumes] := by
  unfold Run.StopsAtFailure
  rw [CleanVolumes_log, CleanVolumes_res]
  cases hp : (d.VolumesPrune [] s).1 with
  | error e => right; exact ⟨_, [], _, rfl, rfl, rfl, by simp⟩
  | ok report =>
    left
    refine ⟨_, rfl, ?_, rfl⟩
    intro ev hev
    rw [List.mem_singleton.mp hev]; rfl

theorem CleanNetworks_stops (d : Daemon σ) (s : σ) :
    (CleanNetworks d s).StopsAtFailure [Kind.networks] := by
  unfold Run.StopsAtFailure
  rw [CleanNetworks_log, CleanNetworks_res]
  cases hp : (d.NetworksPrune [] s).1 with
  | error e => right; exact ⟨_, [], _, rfl, rfl, rfl, by simp⟩
  | ok report =>
    left
    refine ⟨_, rfl, ?_, rfl⟩
    intro ev hev
    rw [List.mem_singleton.mp hev]; rfl

theorem containersBlock_stops (d : Daemon σ) (f : Flags) (t : CleanupStats) (s : σ) :
    (containersBlock d f t s).StopsAtFailure (if f.cleanContainers then [Kind.containers] else [])
      ∧ (containersBlock d f t s).out.filterMap Output.stats? = [] := by
  cases hf : f.cleanContainers
  · simp [containersBlock, hf, Run.StopsAtFailure, prunedKinds]
  · have hs := CleanContainers_stops d f.cleanAll s
    have ho := CleanContainers_out d f.cleanAll s
    unfold Run.StopsAtFailure at hs ⊢
    rcases hs with ⟨a, ha, h1, h2⟩ | ⟨e, before, ev, he, h1, h2, h3⟩
    · simp only [containersBlock, hf, if_true, ha]
      exact ⟨Or.inl ⟨_, rfl, h1, h2⟩, by simp [ho, Output.stats?]⟩
    · simp only [containersBlock, hf, if_true, he]
      exact ⟨Or.inr ⟨_, before, ev, rfl, h1, h2, h3⟩, by simp [ho, Output.stats?]⟩

theorem imagesBlock_stops (d : Daemon σ) (f : Flags) (t : CleanupStats) (s : σ) :
    (imagesBlock d f t s).StopsAtFailure (if f.cleanImages then [Kind.images] else [])
      ∧ (imagesBlock d f t s).out.filterMap Output.stats? = [] := by
  cases hf : f.cleanImages
  · simp [imagesBlock, hf, Run.StopsAtFailure, prunedKinds]
  · have hs := CleanImages_stops d f.dangling s
    have ho := CleanImages_out d f.dangling s
    unfold Run.StopsAtFailure at hs ⊢
    rcases hs with ⟨a, ha, h1, h2⟩ | ⟨e, before, ev, he, h1, h2, h3⟩
    · simp only [imagesBlock, hf, if_true, ha]
      exact ⟨Or.inl ⟨_, rfl, h1, h2⟩, by simp [ho, Output.stats?]⟩
    · simp only [imagesBlock, hf, if_true, he]
      exact ⟨Or.inr ⟨_, before, ev, rfl, h1, h2, h3⟩, by simp [ho, Output.stats?]⟩

theorem volumesBlock_stops (d : Daemon σ) (f : Flags) (t : CleanupStats) (s : σ) :
    (volumesBlock d f t s).StopsAtFailure (if f.cleanVolumes then [Kind.volumes] else [])
      ∧ (volumesBlock d f t s).out.filterMap Output.stats? = [] := by
  cases hf : f.cleanVolumes
  · simp [volumesBlock, hf, Run.StopsAtFailure, prunedKinds]
  · have hs := CleanVolumes_stops d s
    have ho := CleanVolumes_out d s
    unfold Run.StopsAtFailure at hs ⊢
    rcases hs with ⟨a, ha, h1, h2⟩ | ⟨e, before, ev, he, h1, h2, h3⟩
    · simp only [volumesBlock, hf, if_true, ha]
      exact ⟨Or.inl ⟨_, rfl, h1, h2⟩, by simp [ho, Output.stats?]⟩
    · simp only [volumesBlock, hf, if_true, he]
      exact ⟨Or.inr ⟨_, before, ev, rfl, h1, h2, h3⟩, by simp [ho, Output.stats?]⟩

theorem networksBlock_stops (d : Daemon σ) (f : Flags) (t : CleanupStats) (s : σ) :
    (networksBlock d f t s).StopsAtFailure (if f.cleanNetworks then [Kind.networks] else [])
      ∧ (networksBlock d f t s).out.filterMap Output.stats? = [] := by
  cases hf : f.cleanNetworks
  · simp [networksBlock, hf, Run.StopsAtFailure, prunedKinds]
  · have hs := CleanNetworks_stops d s
    have ho := CleanNetworks_out d s
    unfold Run.StopsAtFailure at hs ⊢
    rcases hs with ⟨a, ha, h1, h2⟩ | ⟨e, before, ev, he, h1, h2, h3⟩
    · simp only [networksBlock, hf, if_true, ha]
      exact ⟨Or.inl ⟨_, rfl, h1, h2⟩, by simp [ho, Output.stats?]⟩
    · simp only [networksBlock, hf, if_true, he]
      exact ⟨Or.inr ⟨_, before, ev, rfl, h1, h2, h3⟩, by simp [ho, Output.stats?]⟩

/-- The four blocks of `runClean` stop at the first failure and otherwise prune the
selected kinds in order. -/
theorem cleanSelected_stops (d : Daemon σ) (f : Flags) (s : σ) :
    (cleanSelected d f s).StopsAtFailure (selectedKinds f) := by
  have h : (cleanSelected d f s).StopsAtFailure
      ((if f.cleanContainers then [Kind.containers] else [])
        ++ ((if f.cleanImages then [Kind.images] else [])
          ++ ((if f.cleanVolumes then [Kind.volumes] else [])
            ++ ((if f.cleanNetworks then [Kind.networks] else []) ++ [])))) := by
    unfold cleanSelected
    refine Run.andThen_stops _ _ _ _ (containersBlock_stops d f _ s).1 fun t1 s1 => ?_
    unfold afterContainers
    refine Run.andThen_stops _ _ _ _ (imagesBlock_stops d f _ _).1 fun t2 s2 => ?_
    refine Run.andThen_stops _ _ _ _ (volumesBlock_stops d f _ _).1 fun t3 s3 => ?_
    refine Run.andThen_stops _ _ _ _ (networksBlock_stops d f _ _).1 fun t4 s4 => ?_
    left
    exact ⟨(), rfl, by simp, rfl⟩
  simpa [selectedKinds, List.append_assoc] using h

/-- The summary is printed exactly by the runs of the four blocks that return no error. -/
theorem cleanSelected_summary (d : Daemon σ) (f : Flags) (s : σ) :
    ((cleanSelected d f s).res = .ok () ∧ ∃ t, summaryOf (cleanSelected d f s).out = some t) ∨
    ((∃ e, (cleanSelected d f s).res = .error e) ∧ summaryOf (cleanSelected d f s).out = none) := by
  unfold cleanSelected summaryOf
  have o1 := (containersBlock_stops d f {} s).2
  cases h1 : (containersBlock d f {} s).res with
  | error e => right; rw [Run.andThen_error _ _ e h1]; exact ⟨⟨e, rfl⟩, by simp [o1]⟩
  | ok t1 =>
    rw [Run.andThen_ok _ _ t1 h1]
    unfold afterContainers
    have o2 := (imagesBlock_stops d f t1 (containersBlock d f {} s).state).2
    cases h2 : (imagesBlock d f t1 (containersBlock d f {} s).state).res with
    | error e => right; rw [Run.andThen_error _ _ e h2]; exact ⟨⟨e, rfl⟩, by simp [o1, o2]⟩
    | ok t2 =>
      rw [Run.andThen_ok _ _ t2 h2]
      have o3 := (volumesBlock_stops d f t2
        (imagesBlock d f t1 (containersBlock d f {} s).state).state).2
      cases h3 : (volumesBlock d f t2
          (imagesBlock d f t1 (containersBlock d f {} s).state).state).res with
      | error e => right; rw [Run.andThen_error _ _ e h3]; exact ⟨⟨e, rfl⟩, by simp [o1, o2, o3]⟩
      | ok t3 =>
        rw [Run.andThen_ok _ _ t3 h3]
        have o4 := (networksBlock_stops d f t3 (volumesBlock d f t2
          (imagesBlock d f t1 (containersBlock d f {} s).state).state).state).2
        cases h4 : (networksBlock d f t3 (volumesBlock d f t2
            (imagesBlock d f t1 (containersBlock d f {} s).state).state).state).res with
        | error e =>
          right; rw [Run.andThen_error _ _ e h4]; exact ⟨⟨e, rfl⟩, by simp [o1, o2, o3, o4]⟩
        | ok t4 =>
          left
          rw [Run.andThen_ok _ _ t4 h4]
          exact ⟨rfl, t4, by simp [o1, o2, o3, o4, Output.stats?]⟩

theorem resolveFlags_force (f : Flags) : (resolveFlags f).force = f.force := by
  rcases f with ⟨a, c, i, v, n, fo, da⟩
  cases a <;> cases c <;> cases i <;> cases v <;> cases n <;> rfl

theorem summaryOf_cons_question (out : List Output) :
    summaryOf (Output.confirmQuestion :: out) = summaryOf out := by
  simp [summaryOf, Output.stats?]

/-- The three ways through `runClean` once the client exists. -/
theorem runClean_cases (flags : Flags) (response : String) (d : Daemon σ) (s : σ) :
    runClean flags response (.ok d) s =
      if flags.force then cleanSelected d (resolveFlags flags) s
      else if response != "y" && response != "Y" then
        ⟨.ok (), s, [], [Output.confirmQuestion, Output.cancelled]⟩
      else
        ⟨(cleanSelected d (resolveFlags flags) s).res, (cleanSelected d (resolveFlags flags) s).state,
          (cleanSelected d (resolveFlags flags) s).log,
          Output.confirmQuestion :: (cleanSelected d (resolveFlags flags) s).out⟩ := by
  simp only [runClean, NewClient, resolveFlags_force]

/-- A run that gets past the confirmation is the run of the four blocks, up to the
question printed first. -/
theorem runClean_confirmed (flags : Flags) (response : String) (d : Daemon σ) (s : σ)
    (h : confirmed flags response = true) :
    (runClean flags response (.ok d) s).res = (cleanSelected d (resolveFlags flags) s).res ∧
    (runClean flags response (.ok d) s).state = (cleanSelected d (resolveFlags flags) s).state ∧
    (runClean flags response (.ok d) s).log = (cleanSelected d (resolveFlags flags) s).log ∧
    summaryOf (runClean flags response (.ok d) s).out
      = summaryOf (cleanSelected d (resolveFlags flags) s).out := by
  rw [runClean_cases]
  cases hf : flags.force
  · have hr : (response != "y" && response != "Y") = false := by
      simp only [confirmed, hf, Bool.false_or, Bool.not_eq_true'] at h
      exact h
    simp [hr, summaryOf_cons_question]
  · simp

/-- A run that does not get past the confirmation does nothing. -/
theorem runClean_cancelled (flags : Flags) (response : String) (d : Daemon σ) (s : σ)
    (h : confirmed flags response = false) :
    runClean flags response (.ok d) s
      = ⟨.ok (), s, [], [Output.confirmQuestion, Output.cancelled]⟩ := by
  rw [runClean_cases]
  cases hf : flags.force
  · have hr : (response != "y" && response != "Y") = true := by
      simp only [confirmed, hf, Bool.false_or, Bool.not_eq_false'] at h
      exact h
    simp [hr]
  · simp [confirmed, hf] at h

theorem failure_is_last (before pre after : List Event) (ev last : Event)
    (h : pre ++ [last] = before ++ ev :: after) (hev : ev.isFailedStep = true)
    (hpre : ∀ x ∈ pre, x.isFailedStep = false) : after = [] := by
  rcases List.eq_nil_or_concat after with h0 | ⟨front, tail, h0⟩
  · exact h0
  · exfalso
    rw [h0] at h
    have h2 : pre ++ [last] = (before ++ ev :: front) ++ [tail] := by
      rw [h]; simp
    have h3 := List.append_inj_left' h2 rfl
    have h4 : ev ∈ pre := by rw [h3]; simp
    rw [hpre ev h4] at hev
    cases hev

theorem cleanSelected_failure (d : Daemon σ) (f : Flags) (s : σ) (before after : List Event)
    (ev : Event) (h : (cleanSelected d f s).log = before ++ ev :: after)
    (hev : ev.isFailedStep = true) :
    after = [] ∧ (∃ e, (cleanSelected d f s).res = .error e) ∧
      summaryOf (cleanSelected d f s).out = none := by
  rcases cleanSelected_stops d f s with ⟨a, ha, hlog, _⟩ | ⟨e, pre, last, he, hlog, hlast, hpre⟩
  · exfalso
    have : ev ∈ (cleanSelected d f s).log := by rw [h]; simp
    rw [hlog ev this] at hev
    cases hev
  · refine ⟨failure_is_last before pre after ev last (hlog ▸ h) hev hpre, ⟨e, he⟩, ?_⟩
    rcases cleanSelected_summary d f s with ⟨hok, _⟩ | ⟨_, hnone⟩
    · rw [he] at hok; cases hok
    · exact hnone

theorem Run.andThen_reports {α β : Type} (r : Run σ (Except String α))
    (next : α → σ → Run σ (Except String β)) (k1 k2 : List Kind)
    (hs : r.StopsAtFailure k1) (h1 : r.ReportsAbort k1)
    (h2 : ∀ a s, (next a s).ReportsAbort k2) :
    (r.andThen next).ReportsAbort (k1 ++ k2) := by
  intro e he
  cases hr : r.res with
  | error e1 =>
    rw [Run.andThen_error r next e1 hr] at he ⊢
    injection he with he
    subst he
    obtain ⟨before, ev, later, hlog, hmsg, hk⟩ := h1 e1 hr
    exact ⟨before, ev, later ++ k2, hlog, hmsg, by rw [hk]; simp⟩
  | ok a =>
    rw [Run.andThen_ok r next a hr] at he ⊢
    obtain ⟨before, ev, later, hlog, hmsg, hk⟩ := h2 a r.state e he
    have hp : prunedKinds r.log = k1 := by
      rcases hs with ⟨_, _, _, hp⟩ | ⟨e0, _, _, he0, _⟩
      · exact hp
      · rw [hr] at he0; cases he0
    refine ⟨r.log ++ before, ev, later, ?_, hmsg, ?_⟩
    · show r.log ++ (next a r.state).log = r.log ++ before ++ [ev]
      rw [hlog, List.append_assoc]
    · rw [hk, ← hp]
      simp [prunedKinds]

theorem containersBlock_reports (d : Daemon σ) (f : Flags) (t : CleanupStats) (s : σ) :
    (containersBlock d f t s).ReportsAbort
      (if f.cleanContainers then [Kind.containers] else []) := by
  intro e he
  cases hf : f.cleanContainers
  · simp [containersBlock, hf] at he
  · have hlog : (containersBlock d f t s).log = (CleanContainers d f.cleanAll s).log := by
      cases hr : (CleanContainers d f.cleanAll s).res <;> simp [containersBlock, hf, hr]
    rw [hlog, CleanContainers_log]
    cases hr : (CleanContainers d f.cleanAll s).res with
    | ok st => simp [containersBlock, hf, hr] at he
    | error e0 =>
      simp only [containersBlock, hf, if_true, hr] at he
      injection he with he
      subst he
      rw [CleanContainers_res] at hr
      cases hall : f.cleanAll
      · simp only [hall, Bool.false_eq_true, if_false] at hr ⊢
        rw [pruneContainers_log]
        cases hp : (d.ContainersPrune [] s).1 with
        | ok report => rw [pruneContainers_ok d s report hp] at hr; cases hr
        | error e1 =>
          rw [pruneContainers_error d s e1 hp] at hr
          injection hr with hr
          subst hr
          exact ⟨[], _, [], rfl, rfl, rfl⟩
      · simp only [hall, if_true] at hr ⊢
        cases hl : (d.ContainerList false s).1 with
        | error e1 =>
          simp only [hl] at hr ⊢
          injection hr with hr
          subst hr
          exact ⟨[], _, [], rfl, rfl, rfl⟩
        | ok cs =>
          simp only [hl] at hr ⊢
          rw [pruneContainers_log]
          cases hp : (d.ContainersPrune [] (stopListed d cs (d.ContainerList false s).2).state).1 with
          | ok report => rw [pruneContainers_ok d _ report hp] at hr; cases hr
          | error e1 =>
            rw [pruneContainers_error d _ e1 hp] at hr
            injection hr with hr
            subst hr
            refine ⟨Event.containerList false (.ok cs)
              :: (stopListed d cs (d.ContainerList false s).2).log, _, [], rfl, rfl, ?_⟩
            have := stopListed_prunedKinds d cs (d.ContainerList false s).2
            simp only [prunedKinds] at this
            simp [prunedKinds, Event.prunedKind, this, Event.kind]

theorem imagesBlock_reports (d : Daemon σ) (f : Flags) (t : CleanupStats) (s : σ) :
    (imagesBlock d f t s).ReportsAbort (if f.cleanImages then [Kind.images] else []) := by
  intro e he
  cases hf : f.cleanImages
  · simp [imagesBlock, hf] at he
  · have hlog : (imagesBlock d f t s).log = (CleanImages d f.dangling s).log := by
      cases hr : (CleanImages d f.dangling s).res <;> simp [imagesBlock, hf, hr]
    rw [hlog, CleanImages_log]
    cases hr : (CleanImages d f.dangling s).res with
    | ok st => simp [imagesBlock, hf, hr] at he
    | error e0 =>
      simp only [imagesBlock, hf, if_true, hr] at he
      injection he with he
      subst he
      rw [CleanImages_res] at hr
      cases hp : (d.ImagesPrune (if f.dangling then [("dangling", "true")] else []) s).1 with
      | ok report => rw [hp] at hr; cases hr
      | error e1 =>
        rw [hp] at hr
        injection hr with hr
        subst hr
        exact ⟨[], _, [], rfl, rfl, rfl⟩

theorem volumesBlock_reports (d : Daemon σ) (f : Flags) (t : CleanupStats) (s : σ) :
    (volumesBlock d f t s).ReportsAbort (if f.cleanVolumes then [Kind.volumes] else []) := by
  intro e he
  cases hf : f.cleanVolumes
  · simp [volumesBlock, hf] at he
  · have hlog : (volumesBlock d f t s).log = (CleanVolumes d s).log := by
      cases hr : (CleanVolumes d s).res <;> simp [volumesBlock, hf, hr]
    rw [hlog, CleanVolumes_log]
    cases hr : (CleanVolumes d s).res with
    | ok st => simp [volumesBlock, hf, hr] at he
    | error e0 =>
      simp only [volumesBlock, hf, if_true, hr] at he
      injection he with he
      subst he
      rw [CleanVolumes_res] at hr
      cases hp : (d.VolumesPrune [] s).1 with
      | ok report => rw [hp] at hr; cases hr
      | error e1 =>
        rw [hp] at hr
        injection hr with hr
        subst hr
        exact ⟨[], _, [], rfl, rfl, rfl⟩

theorem networksBlock_reports (d : Daemon σ) (f : Flags) (t : CleanupStats) (s : σ) :
    (networksBlock d f t s).ReportsAbort (if f.cleanNetworks then [Kind.networks] else []) := by
  intro e he
  cases hf : f.cleanNetworks
  · simp [networksBlock, hf] at he
  · have hlog : (networksBlock d f t s).log = (CleanNetworks d s).log := by
      cases hr : (CleanNetworks d s).res <;> simp [networksBlock, hf, hr]
    rw [hlog, CleanNetworks_log]
    cases hr : (CleanNetworks d s).res with
    | ok st => simp [networksBlock, hf, hr] at he
    | error e0 =>
      simp only [networksBlock, hf, if_true, hr] at he
      injection he with he
      subst he
      rw [CleanNetworks_res] at hr
      cases hp : (d.NetworksPrune [] s).1 with
      | ok report => rw [hp] at hr; cases hr
      | error e1 =>
        rw [hp] at hr
        injection hr with hr
        subst hr
        exact ⟨[], _, [], rfl, rfl, rfl⟩

theorem afterContainers_stops (d : Daemon σ) (f : Flags) (t1 : CleanupStats) (s1 : σ) :
    (afterContainers d f t1 s1).StopsAtFailure
      ((if f.cleanImages then [Kind.images] else [])
        ++ ((if f.cleanVolumes then [Kind.volumes] else [])
          ++ ((if f.cleanNetworks then [Kind.networks] else []) ++ []))) := by
  unfold afterContainers
  refine Run.andThen_stops _ _ _ _ (imagesBlock_stops d f _ _).1 fun t2 s2 => ?_
  refine Run.andThen_stops _ _ _ _ (volumesBlock_stops d f _ _).1 fun t3 s3 => ?_
  refine Run.andThen_stops _ _ _ _ (networksBlock_stops d f _ _).1 fun t4 s4 => ?_
  left
  exact ⟨(), rfl, by simp, rfl⟩

/-- The four blocks of `runClean`, when they end with an error, end with the error of
the call that failed, wrapped twice, having pruned the selected kinds that come before
the kind of that call. -/
theorem cleanSelected_reports (d : Daemon σ) (f : Flags) (s : σ) :
    (cleanSelected d f s).ReportsAbort (selectedKinds f) := by
  have h : (cleanSelected d f s).ReportsAbort
      ((if f.cleanContainers then [Kind.containers] else [])
        ++ ((if f.cleanImages then [Kind.images] else [])
          ++ ((if f.cleanVolumes then [Kind.volumes] else [])
            ++ ((if f.cleanNetworks then [Kind.networks] else []) ++ [])))) := by
    unfold cleanSelected
    refine Run.andThen_reports _ _ _ _ (containersBlock_stops d f _ s).1
      (containersBlock_reports d f _ s) fun t1 s1 => ?_
    unfold afterContainers
    refine Run.andThen_reports _ _ _ _ (imagesBlock_stops d f _ _).1
      (imagesBlock_reports d f _ _) fun t2 s2 => ?_
    refine Run.andThen_reports _ _ _ _ (volumesBlock_stops d f _ _).1
      (volumesBlock_reports d f _ _) fun t3 s3 => ?_
    refine Run.andThen_reports _ _ _ _ (networksBlock_stops d f _ _).1
      (networksBlock_reports d f _ _) fun t4 s4 => ?_
    intro e he
    cases he
  simpa [selectedKinds, List.append_assoc] using h

/-- A list or prune call that failed in the four blocks of `runClean`: what the run
returns and what it has pruned before. -/
theorem cleanSelected_abort (d : Daemon σ) (f : Flags) (s : σ) (before after : List Event)
    (ev : Event) (h : (cleanSelected d f s).log = before ++ ev :: after)
    (hev : ev.isFailedStep = true) :
    (∃ msg, abortMessage ev = some msg ∧ (cleanSelected d f s).res = .error msg) ∧
    ∃ later, selectedKinds f = prunedKinds before ++ ev.kind :: later := by
  obtain ⟨hafter, ⟨e, he⟩, _⟩ := cleanSelected_failure d f s before after ev h hev
  obtain ⟨before2, ev2, later, hlog, hmsg, hk⟩ := cleanSelected_reports d f s e he
  rw [hafter] at h
  have heq : before2 ++ [ev2] = before ++ [ev] := by rw [← hlog, h]
  have hb : before2 = before := List.append_inj_left' heq rfl
  have hv : [ev2] = [ev] := List.append_inj_right' heq rfl
  injection hv with hv
  rw [hb, hv] at hk
  rw [hv] at hmsg
  exact ⟨⟨e, hmsg, he⟩, later, hk⟩

/-- C1, refuted as stated: with containers and images selected on an engine that
rejects the prune of containers, `runClean` returns the error of the container step, the
prune of containers is the only API call, images are not pruned and no summary is
printed. -/
theorem runClean_aborts_on_container_failure :
    (runClean { cleanContainers := true, cleanImages := true, force := true } ""
        (.ok rejectingDaemon) ()).res
      = .error ("failed to clean containers: failed to prune containers: "
          ++ "a prune operation is already running") ∧
    (runClean { cleanContainers := true, cleanImages := true, force := true } ""
        (.ok rejectingDaemon) ()).log
      = [Event.containersPrune [] (.error "a prune operation is already running")] ∧
    prunedKinds (runClean { cleanContainers := true, cleanImages := true, force := true } ""
        (.ok rejectingDaemon) ()).log = [Kind.containers] ∧
    summaryOf (runClean { cleanContainers := true, cleanImages := true, force := true } ""
        (.ok rejectingDaemon) ()).out = none := by
  decide

/-- C1, amended. In `runClean` a failure is not caught.  A list or prune call that fails is
the last API call of the run; the command returns the error of that call, wrapped as
"failed to clean <kind>: failed to list|prune <kind>: <engine error>" for the kind being
cleaned; no summary is printed; the selected kinds that come before that kind have been
pruned, in order, and neither that kind nor a later one is.  A run in which no list or
prune call fails returns `nil`, and when it got past the confirmation it prunes every
selected kind and prints the summary. -/
theorem runClean_stops_at_first_failure (flags : Flags) (response : String) (d : Daemon σ)
    (s : σ) :
    (∀ before ev after, (runClean flags response (.ok d) s).log = before ++ ev :: after →
      ev.isFailedStep = true →
        after = [] ∧
        (∃ msg, abortMessage ev = some msg ∧
          (runClean flags response (.ok d) s).res = .error msg) ∧
        summaryOf (runClean flags response (.ok d) s).out = none ∧
        (∃ later, selectedKinds (resolveFlags flags) = prunedKinds before ++ ev.kind :: later) ∧
        prunedKinds after = []) ∧
    ((∀ ev ∈ (runClean flags response (.ok d) s).log, ev.isFailedStep = false) →
      (runClean flags response (.ok d) s).res = .ok () ∧
      (confirmed flags response = true →
        prunedKinds (runClean flags response (.ok d) s).log = selectedKinds (resolveFlags flags) ∧
        ∃ t, summaryOf (runClean flags response (.ok d) s).out = some t)) := by
  cases hc : confirmed flags response
  · rw [runClean_cancelled flags response d s hc]
    refine ⟨?_, fun _ => ⟨rfl, fun h => by cases h⟩⟩
    intro before ev after h
    simp at h
  · obtain ⟨h1, h2, h3, h4⟩ := runClean_confirmed flags response d s hc
    rw [h1, h3, h4]
    refine ⟨fun before ev after h hev => ?_, ?_⟩
    · obtain ⟨ha, _, hsum⟩ :=
        cleanSelected_failure d (resolveFlags flags) s before after ev h hev
      obtain ⟨hmsg, hk⟩ := cleanSelected_abort d (resolveFlags flags) s before after ev h hev
      exact ⟨ha, hmsg, hsum, hk, by rw [ha]; rfl⟩
    · intro hno
      rcases cleanSelected_stops d (resolveFlags flags) s with
        ⟨a, ha, _, hk⟩ | ⟨e, pre, last, he, hlog, hlast, _⟩
      · refine ⟨ha, fun _ => ⟨hk, ?_⟩⟩
        rcases cleanSelected_summary d (resolveFlags flags) s with ⟨_, ht⟩ | ⟨⟨e, he⟩, _⟩
        · exact ht
        · rw [ha] at he; cases he
      · exfalso
        have : last ∈ (cleanSelected d (resolveFlags flags) s).log := by rw [hlog]; simp
        rw [hno last this] at hlast
        cases hlast

/-- C1 amended, at a run with the four kinds selected on an engine that removes a
container and then fails to prune the images: the run returns the wrapped error of the
image prune, has pruned the containers before, and prunes neither volumes nor networks. -/
theorem runClean_stops_at_first_failure_witness :
    (runClean { cleanContainers := true, cleanImages := true, cleanVolumes := true,
                cleanNetworks := true, force := true } "" (.ok imageFailureDaemon) ()).log
      = [Event.containersPrune [] (.ok ⟨[web.ID], 4096⟩)]
          ++ Event.imagesPrune [("dangling", "true")] (.error "layer store is locked") :: [] ∧
    (Event.imagesPrune [("dangling", "true")] (.error "layer store is locked")).isFailedStep
      = true ∧
    ([] : List Event) = [] ∧
    (∃ msg, abortMessage (Event.imagesPrune [("dangling", "true")]
        (.error "layer store is locked")) = some msg ∧
      (runClean { cleanContainers := true, cleanImages := true, cleanVolumes := true,
                  cleanNetworks := true, force := true } "" (.ok imageFailureDaemon) ()).res
        = .error msg) ∧
    summaryOf (runClean { cleanContainers := true, cleanImages := true, cleanVolumes := true,
                          cleanNetworks := true, force := true } ""
        (.ok imageFailureDaemon) ()).out = none ∧
    (∃ later, selectedKinds (resolveFlags ⟨false, true, true, true, true, true, true⟩)
        = prunedKinds [Event.containersPrune [] (.ok ⟨[web.ID], 4096⟩)]
          ++ (Event.imagesPrune [("dangling", "true")] (.error "layer store is locked")).kind
            :: later) ∧
    prunedKinds ([] : List Event) = [] :=
  ⟨by decide, by decide,
    (runClean_stops_at_first_failure
      { cleanContainers := true, cleanImages := true, cleanVolumes := true,
        cleanNetworks := true, force := true }
      "" imageFailureDaemon ()).1 [Event.containersPrune [] (.ok ⟨[web.ID], 4096⟩)]
      (Event.imagesPrune [("dangling", "true")] (.error "layer store is locked")) []
      (by decide) (by decide)⟩

/-- C7. With `--force` the answer is not read: the run does not depend on it and is the
run of the cleaning blocks.  Without `--force`, every answer other than `y` and `Y`, the
empty one included, makes `runClean` return `nil` without any API call, so without stop,
kill or prune, leaving the engine as it was. -/
theorem runClean_confirmation (flags : Flags) (response : String) (d : Daemon σ) (s : σ) :
    (flags.force = true →
      runClean flags response (.ok d) s = cleanSelected d (resolveFlags flags) s ∧
      ∀ other : String, runClean flags other (.ok d) s = runClean flags response (.ok d) s) ∧
    (flags.force = false → response ≠ "y" → response ≠ "Y" →
      (runClean flags response (.ok d) s).res = .ok () ∧
      (runClean flags response (.ok d) s).log = [] ∧
      (runClean flags response (.ok d) s).log.any Event.isMutation = false ∧
      (runClean flags response (.ok d) s).state = s ∧
      (runClean flags response (.ok d) s).out = [Output.confirmQuestion, Output.cancelled]) := by
  constructor
  · intro hf
    refine ⟨by rw [runClean_cases, hf]; rfl, fun other => ?_⟩
    rw [runClean_cases, runClean_cases, hf]
    rfl
  · intro hf hy hY
    have hc : confirmed flags response = false := by
      simp [confirmed, hf, hy, hY]
    rw [runClean_cancelled flags response d s hc]
    exact ⟨rfl, rfl, rfl, rfl, rfl⟩

/-- C7, at the empty answer on an engine with a running container. -/
theorem runClean_confirmation_witness :
    (runClean { cleanAll := true } "" (.ok healthyDaemon) ()).res = .ok () ∧
    (runClean { cleanAll := true } "" (.ok healthyDaemon) ()).log = [] ∧
    (runClean { cleanAll := true } "" (.ok healthyDaemon) ()).log.any Event.isMutation = false ∧
    (runClean { cleanAll := true } "" (.ok healthyDaemon) ()).state = () ∧
    (runClean { cleanAll := true } "" (.ok healthyDaemon) ()).out
      = [Output.confirmQuestion, Output.cancelled] :=
  (runClean_confirmation { cleanAll := true } "" healthyDaemon ()).2 (by decide) (by decide)
    (by decide)

/-- C9. Flag resolution in `runClean`: without any of `--all`, `--containers`, `--images`,
`--volumes`, `--networks` the selected kinds are containers and images; with `--all`
they are the four kinds, whatever the kind flags; otherwise they are the kinds whose own
flag is set.  A run that gets past the confirmation and returns `nil` has pruned exactly
the selected kinds, in the order containers, images, volumes, networks; a run that is not
confirmed prunes nothing. -/
theorem flag_resolution (flags : Flags) (response : String) (d : Daemon σ) (s : σ) :
    ((flags.cleanAll || flags.cleanContainers || flags.cleanImages || flags.cleanVolumes
        || flags.cleanNetworks) = false →
      selectedKinds (resolveFlags flags) = [Kind.containers, Kind.images]) ∧
    (flags.cleanAll = true →
      selectedKinds (resolveFlags flags)
        = [Kind.containers, Kind.images, Kind.volumes, Kind.networks]) ∧
    (flags.cleanAll = false →
      (flags.cleanContainers || flags.cleanImages || flags.cleanVolumes
        || flags.cleanNetworks) = true →
      selectedKinds (resolveFlags flags) = selectedKinds flags) ∧
    (confirmed flags response = true → (runClean flags response (.ok d) s).res = .ok () →
      prunedKinds (runClean flags response (.ok d) s).log = selectedKinds (resolveFlags flags)) ∧
    (confirmed flags response = false →
      prunedKinds (runClean flags response (.ok d) s).log = []) := by
  refine ⟨?_, ?_, ?_, ?_, ?_⟩
  · rcases flags with ⟨a, c, i, v, n, fo, da⟩
    cases a <;> cases c <;> cases i <;> cases v <;> cases n <;> simp [resolveFlags, selectedKinds]
  · rcases flags with ⟨a, c, i, v, n, fo, da⟩
    intro h
    simp only at h
    subst h
    cases c <;> cases i <;> cases v <;> cases n <;> simp [resolveFlags, selectedKinds]
  · rcases flags with ⟨a, c, i, v, n, fo, da⟩
    intro h
    simp only at h
    subst h
    cases c <;> cases i <;> cases v <;> cases n <;> simp [resolveFlags, selectedKinds]
  · intro hc hres
    obtain ⟨h1, _, h3, _⟩ := runClean_confirmed flags response d s hc
    rw [h3]
    rw [h1] at hres
    rcases cleanSelected_stops d (resolveFlags flags) s with ⟨a, _, _, hk⟩ | ⟨e, _, _, he, _⟩
    · exact hk
    · rw [he] at hres; cases hres
  · intro hc
    rw [runClean_cancelled flags response d s hc]
    rfl

/-- C9, at the command line without any flag but `--force`, on a healthy engine. -/
theorem flag_resolution_witness :
    selectedKinds (resolveFlags { force := true }) = [Kind.containers, Kind.images] ∧
    prunedKinds (runClean { force := true } "" (.ok healthyDaemon) ()).log
      = selectedKinds (resolveFlags { force := true }) :=
  ⟨(flag_resolution { force := true } "" healthyDaemon ()).1 (by decide),
   (flag_resolution { force := true } "" healthyDaemon ()).2.2.2.1 (by decide) (by decide)⟩

/-- C2, the failing run: with only containers selected, on an engine whose prune of
containers removes one container and reclaims 4096 bytes, the summary of `runClean` counts
one container and zero bytes, while `CleanContainers` returned the 4096 bytes and
`CleanAll` on the same engine adds them to its total. -/
theorem runClean_drops_container_space :
    (runClean { cleanContainers := true, force := true } "" (.ok healthyDaemon) ()).res = .ok () ∧
    (runClean { cleanContainers := true, force := true } "" (.ok healthyDaemon) ()).log
      = [Event.containersPrune [] (.ok ⟨[web.ID], 4096⟩)] ∧
    summaryOf (runClean { cleanContainers := true, force := true } "" (.ok healthyDaemon) ()).out
      = some { ContainersRemoved := 1, SpaceReclaimed := 0 } ∧
    (CleanContainers healthyDaemon false ()).res
      = .ok { ContainersRemoved := 1, SpaceReclaimed := 4096 } ∧
    (CleanAll healthyDaemon ()).res
      = .ok { ContainersRemoved := 1, ImagesRemoved := 2, VolumesRemoved := 1,
              NetworksRemoved := 1, SpaceReclaimed := 4216 } ∧
    summaryOf (runClean { cleanAll := true, force := true } "" (.ok healthyDaemon) ()).out
      = some { ContainersRemoved := 1, ImagesRemoved := 2, VolumesRemoved := 1,
               NetworksRemoved := 1, SpaceReclaimed := 120 } := by
  decide

/-- The blocks after the one for containers do not read the `--all` flag. -/
theorem afterContainers_all (d : Daemon σ) (fo da : Bool) :
    afterContainers d ⟨true, true, true, true, true, fo, da⟩
      = afterContainers d ⟨false, true, true, true, true, fo, da⟩ := by
  funext t s
  rfl

/-- With `--all` resolved, the four blocks of `runClean` are: the list call, the stop
requests, and then the four blocks of the run with the four kind flags, started from
the engine state that the stop requests left. -/
theorem cleanSelected_all (d : Daemon σ) (fo da : Bool) (s : σ) (cs : List Container)
    (hl : (d.ContainerList false s).1 = .ok cs) :
    (cleanSelected d ⟨true, true, true, true, true, fo, da⟩ s).res
      = (cleanSelected d ⟨false, true, true, true, true, fo, da⟩
          (stopListed d cs (d.ContainerList false s).2).state).res ∧
    (cleanSelected d ⟨true, true, true, true, true, fo, da⟩ s).state
      = (cleanSelected d ⟨false, true, true, true, true, fo, da⟩
          (stopListed d cs (d.ContainerList false s).2).state).state ∧
    (cleanSelected d ⟨true, true, true, true, true, fo, da⟩ s).log
      = Event.containerList false (.ok cs)
          :: ((stopListed d cs (d.ContainerList false s).2).log
            ++ (cleanSelected d ⟨false, true, true, true, true, fo, da⟩
                (stopListed d cs (d.ContainerList false s).2).state).log) ∧
    summaryOf (cleanSelected d ⟨true, true, true, true, true, fo, da⟩ s).out
      = summaryOf (cleanSelected d ⟨false, true, true, true, true, fo, da⟩
          (stopListed d cs (d.ContainerList false s).2).state).out := by
  have ho := stopListed_out d cs (d.ContainerList false s).2
  have hp := pruneContainers_out d (stopListed d cs (d.ContainerList false s).2).state
  unfold cleanSelected
  rw [afterContainers_all]
  cases hres : (pruneContainers d (stopListed d cs (d.ContainerList false s).2).state).res with
  | error e =>
    have hA : (containersBlock d ⟨true, true, true, true, true, fo, da⟩ {} s).res
        = .error ("failed to clean containers: " ++ e) := by
      simp [containersBlock, CleanContainers, hl, hres]
    have hF : (containersBlock d ⟨false, true, true, true, true, fo, da⟩ {}
        (stopListed d cs (d.ContainerList false s).2).state).res
        = .error ("failed to clean containers: " ++ e) := by
      simp [containersBlock, CleanContainers, hres]
    rw [Run.andThen_error _ _ _ hA, Run.andThen_error _ _ _ hF]
    simp [containersBlock, CleanContainers, hl, hres, summaryOf, ho, hp, Output.stats?]
  | ok st =>
    have hA : (containersBlock d ⟨true, true, true, true, true, fo, da⟩ {} s).res
        = .ok { ContainersRemoved := wrapInt64 (0 + st.ContainersRemoved) } := by
      simp [containersBlock, CleanContainers, hl, hres]
    have hF : (containersBlock d ⟨false, true, true, true, true, fo, da⟩ {}
        (stopListed d cs (d.ContainerList false s).2).state).res
        = .ok { ContainersRemoved := wrapInt64 (0 + st.ContainersRemoved) } := by
      simp [containersBlock, CleanContainers, hres]
    have hS : (containersBlock d ⟨true, true, true, true, true, fo, da⟩ {} s).state
        = (containersBlock d ⟨false, true, true, true, true, fo, da⟩ {}
            (stopListed d cs (d.ContainerList false s).2).state).state := by
      simp [containersBlock, CleanContainers, hl, hres]
    rw [Run.andThen_ok _ _ _ hA, Run.andThen_ok _ _ _ hF, hS]
    simp [containersBlock, CleanContainers, hl, hres, summaryOf, ho, hp, Output.stats?]

/-- C3, refuted as stated: on an engine that tracks one running container, the run with
`--all` lists the container, stops it and then removes it, while the run with the four
kind flags and without `--all` issues the four prune calls only and removes nothing: the
sequences of API calls differ and so do the statistics of the summary. -/
theorem all_flag_differs_from_kind_flags :
    (runClean { cleanAll := true, force := true } "" (.ok (trackingDaemon [web])) [web.ID]).log.map
        Event.call
      = [Call.containerList false, Call.containerStop web.ID 10, Call.containersPrune [],
         Call.imagesPrune [("dangling", "true")], Call.volumesPrune [], Call.networksPrune []] ∧
    (runClean { cleanContainers := true, cleanImages := true, cleanVolumes := true,
                cleanNetworks := true, force := true } ""
        (.ok (trackingDaemon [web])) [web.ID]).log.map Event.call
      = [Call.containersPrune [], Call.imagesPrune [("dangling", "true")], Call.volumesPrune [],
         Call.networksPrune []] ∧
    summaryOf (runClean { cleanAll := true, force := true } ""
        (.ok (trackingDaemon [web])) [web.ID]).out
      = some { ContainersRemoved := 1 } ∧
    summaryOf (runClean { cleanContainers := true, cleanImages := true, cleanVolumes := true,
                          cleanNetworks := true, force := true } ""
        (.ok (trackingDaemon [web])) [web.ID]).out
      = some { ContainersRemoved := 0 } := by
  decide

/-- C3, amended. For every value of `--force` and `--dangling`, every answer and every
engine, the run with `--all` selects the same four kinds as the run with the four kind
flags and without `--all`, and the two coincide when the confirmation is refused.
Otherwise the run with `--all` first lists the running containers.  When the list fails
it returns that error after this single call.  When the list succeeds it sends every
listed container a stop request, and from there on it is the run with the four kind
flags started from the engine state that the stop requests left: the same result, the
same final state, the same API calls after the list and the stops, the same summary. -/
theorem all_flag_versus_kind_flags (c i v n fo da : Bool) (response : String) (d : Daemon σ)
    (s : σ) :
    selectedKinds (resolveFlags ⟨true, c, i, v, n, fo, da⟩)
      = selectedKinds (resolveFlags ⟨false, true, true, true, true, fo, da⟩) ∧
    (confirmed ⟨true, c, i, v, n, fo, da⟩ response = false →
      runClean ⟨true, c, i, v, n, fo, da⟩ response (.ok d) s
        = runClean ⟨false, true, true, true, true, fo, da⟩ response (.ok d) s) ∧
    (confirmed ⟨true, c, i, v, n, fo, da⟩ response = true →
      (∀ e, (d.ContainerList false s).1 = .error e →
        (runClean ⟨true, c, i, v, n, fo, da⟩ response (.ok d) s).res
          = .error ("failed to clean containers: " ++ ("failed to list containers: " ++ e)) ∧
        (runClean ⟨true, c, i, v, n, fo, da⟩ response (.ok d) s).log
          = [Event.containerList false (.error e)]) ∧
      (∀ cs, (d.ContainerList false s).1 = .ok cs →
        (runClean ⟨true, c, i, v, n, fo, da⟩ response (.ok d) s).res
          = (runClean ⟨false, true, true, true, true, fo, da⟩ response (.ok d)
              (stopListed d cs (d.ContainerList false s).2).state).res ∧
        (runClean ⟨true, c, i, v, n, fo, da⟩ response (.ok d) s).state
          = (runClean ⟨false, true, true, true, true, fo, da⟩ response (.ok d)
              (stopListed d cs (d.ContainerList false s).2).state).state ∧
        (runClean ⟨true, c, i, v, n, fo, da⟩ response (.ok d) s).log
          = Event.containerList false (.ok cs)
              :: ((stopListed d cs (d.ContainerList false s).2).log
                ++ (runClean ⟨false, true, true, true, true, fo, da⟩ response (.ok d)
                    (stopListed d cs (d.ContainerList false s).2).state).log) ∧
        summaryOf (runClean ⟨true, c, i, v, n, fo, da⟩ response (.ok d) s).out
          = summaryOf (runClean ⟨false, true, true, true, true, fo, da⟩ response (.ok d)
              (stopListed d cs (d.ContainerList false s).2).state).out)) := by
  have hA : resolveFlags ⟨true, c, i, v, n, fo, da⟩ = ⟨true, true, true, true, true, fo, da⟩ := by
    cases c <;> cases i <;> cases v <;> cases n <;> rfl
  have hF : resolveFlags ⟨false, true, true, true, true, fo, da⟩
      = ⟨false, true, true, true, true, fo, da⟩ := rfl
  have hcf : ∀ r : String, confirmed ⟨false, true, true, true, true, fo, da⟩ r
      = confirmed ⟨true, c, i, v, n, fo, da⟩ r := fun _ => rfl
  refine ⟨by rw [hA, hF]; rfl, ?_, ?_⟩
  · intro hc
    rw [runClean_cancelled _ response d s hc,
      runClean_cancelled _ response d s ((hcf response).trans hc)]
  · intro hc
    obtain ⟨a1, a2, a3, a4⟩ := runClean_confirmed _ response d s hc
    rw [hA] at a1 a2 a3 a4
    refine ⟨?_, ?_⟩
    · intro e he
      rw [a1, a3]
      have hB : (containersBlock d ⟨true, true, true, true, true, fo, da⟩ {} s).res
          = .error ("failed to clean containers: " ++ ("failed to list containers: " ++ e)) := by
        simp [containersBlock, CleanContainers, he]
      unfold cleanSelected
      rw [Run.andThen_error _ _ _ hB]
      simp [containersBlock, CleanContainers, he]
    · intro cs hl
      obtain ⟨f1, f2, f3, f4⟩ := runClean_confirmed ⟨false, true, true, true, true, fo, da⟩
        response d (stopListed d cs (d.ContainerList false s).2).state ((hcf response).trans hc)
      rw [hF] at f1 f2 f3 f4
      obtain ⟨k1, k2, k3, k4⟩ := cleanSelected_all d fo da s cs hl
      rw [a1, a2, a3, a4, f1, f2, f3, f4]
      exact ⟨k1, k2, k3, k4⟩

/-- C3 amended, on the engine that tracks one running container. -/
theorem all_flag_versus_kind_flags_witness :
    confirmed ⟨true, false, false, false, false, true, true⟩ "" = true ∧
    ((trackingDaemon [web]).ContainerList false [web.ID]).1 = .ok [web] ∧
    (runClean ⟨true, false, false, false, false, true, true⟩ "" (.ok (trackingDaemon [web]))
        [web.ID]).log
      = Event.containerList false (.ok [web])
          :: ((stopListed (trackingDaemon [web]) [web]
                ((trackingDaemon [web]).ContainerList false [web.ID]).2).log
            ++ (runClean ⟨false, true, true, true, true, true, true⟩ "" (.ok (trackingDaemon [web]))
                (stopListed (trackingDaemon [web]) [web]
                  ((trackingDaemon [web]).ContainerList false [web.ID]).2).state).log) :=
  ⟨by decide, by decide,
    (((all_flag_versus_kind_flags false false false false true true "" (trackingDaemon [web])
      [web.ID]).2.2 (by decide)).2 [web] (by decide)).2.2.1⟩

end DockerCleaner
